import Mathlib

/-!
# goloop: contract snapshots (`service/state/contract.go`) and the service
manager (`service/manager.go`)

Shallow embedding of the Go code.  Conventions:

* a Go `[]byte` is `Bytes = Option (List Nat)`; `none` is the nil slice, and
  `len` / `bytes.Equal` look at the content only, as in Go;
* a Go `error` result is `Option Error` (`none` is `nil`);
* an interface of an external collaborator (`db.Bucket`) is a record of
  functions over the collaborator's state;
* calls into collaborators whose only role is a side effect (the dirty hook,
  `merkle.Builder.RequestData`, metrics, storage reads) are recorded in an
  effect trace returned next to the result;
* objects reached through pointers live in a `Heap`; an address is an index.
-/

namespace Goloop

/-! ## Byte slices, errors, hashing -/

/-- Go byte slice: `none` is the nil slice, `some l` a non-nil slice. -/
abbrev Bytes := Option (List Nat)

/-- The bytes held by a slice (nil holds none). -/
def content (b : Bytes) : List Nat :=
  match b with
  | none => []
  | some l => l

/-- Go `len(b)`. -/
def len (b : Bytes) : Nat := (content b).length

/-- Go `bytes.Equal`: equal length and equal bytes; nil equals the empty slice. -/
def bytesEqual (a b : Bytes) : Bool := decide (content a = content b)

/-- Error values returned by the code under study (`errors` package codes), plus
the errors a storage backend may raise. -/
inductive Error where
  | NotFoundError
  | InvalidStateError
  | ErrIllegalArgument
  | InvalidPatchDataError
  | backend (code : Nat)
  | InvalidQueryError
  | NotContractAddressError
  | NoActiveContractError
  | ScoreError (status : Int)
  | InvalidTypeTag (tag : Nat)
  | UnknownType
  | parse (code : Nat)
  deriving DecidableEq, Repr

/-- `crypto.SHA3Sum256`: the digest function `sha3` is a parameter (the crypto
package is a library); the result is always a non-nil slice. -/
def SHA3Sum256 (sha3 : List Nat → List Nat) (m : Bytes) : Bytes :=
  some (sha3 (content m))

/-- A stand-in digest used to evaluate the definitions on concrete inputs:
32 bytes, the first two depend on the message. -/
def toySHA3 (m : List Nat) : List Nat :=
  (m.length % 256) :: (m.sum % 256) :: List.replicate 30 0

/-! ## `db.Bucket` -/

/-- The `db.Bucket` interface over a backend state `σ`. -/
structure Bucket (σ : Type) where
  Get : σ → Bytes → Except Error Bytes
  Has : σ → Bytes → Except Error Bool
  Set : σ → Bytes → Bytes → Except Error σ
  Delete : σ → Bytes → Except Error σ

/-- Modelled from the spec: the key/value storage backend behind `db.Bucket`
(`common/db`, only its test is among the sources).  A bucket is a finite map
from keys to values; `Get` of an absent key yields nil and no error, a stored
empty value is present and zero-length. -/
def mapBucket : Bucket (List (List Nat × List Nat)) where
  Get := fun s k =>
    match s.lookup (content k) with
    | none => .ok none
    | some v => .ok (some v)
  Has := fun s k => .ok (s.lookup (content k)).isSome
  Set := fun s k v => .ok ((content k, content v) :: s.filter (fun e => e.1 != content k))
  Delete := fun s k => .ok (s.filter (fun e => e.1 != content k))

/-- Names of buckets (`db.BucketID`). -/
inductive BucketID where
  | BytesByHash
  | MerkleTrie
  | TransactionLocatorByHash
  deriving DecidableEq, Repr

/-! ## `contractSnapshotImpl` -/

/-- The struct `contractSnapshotImpl`.  `bk` is the handle of the bucket the
snapshot reads and writes; `state` is a `ContractState` (an `int`), `eeType`
an `EEType` (a string type). -/
structure contractSnapshotImpl where
  bk : Nat
  isNew : Bool
  state : Int
  contentType : String
  eeType : String
  deployTxHash : Bytes
  auditTxHash : Bytes
  codeHash : Bytes
  code : Bytes
  params : Bytes
  deriving DecidableEq, Repr

/-- Outcome of `Code()`: the returned pair, the receiver after the call and the
storage reads made (bucket handle, key). -/
structure CodeResult where
  ret : Bytes
  err : Option Error
  self : contractSnapshotImpl
  reads : List (Nat × Bytes)
  deriving DecidableEq, Repr

/-- `func (c *contractSnapshotImpl) Code() ([]byte, error)`. -/
def contractSnapshotImpl.Code {σ : Type} (B : Bucket σ) (db : Nat → σ)
    (c : contractSnapshotImpl) : CodeResult :=
  if len c.code = 0 then
    if len c.codeHash = 0 then
      { ret := none, err := none, self := c, reads := [] }
    else
      match B.Get (db c.bk) c.codeHash with
      | .error err => { ret := none, err := some err, self := c, reads := [(c.bk, c.codeHash)] }
      | .ok code =>
        if len code = 0 then
          { ret := none, err := some Error.NotFoundError, self := c,
            reads := [(c.bk, c.codeHash)] }
        else
          { ret := code, err := none, self := { c with code := code },
            reads := [(c.bk, c.codeHash)] }
  else
    { ret := c.code, err := none, self := c, reads := [] }

/-- Outcome of `flush()`: the error, the receiver and the buckets afterwards. -/
structure FlushResult (σ : Type) where
  err : Option Error
  self : contractSnapshotImpl
  db : Nat → σ

/-- `func (c *contractSnapshotImpl) flush() error`. -/
def contractSnapshotImpl.flush {σ : Type} (B : Bucket σ) (db : Nat → σ)
    (c : contractSnapshotImpl) : FlushResult σ :=
  if c.isNew = false then
    { err := none, self := c, db := db }
  else
    match B.Set (db c.bk) c.codeHash c.code with
    | .error err => { err := some err, self := c, db := db }
    | .ok s => { err := none, self := { c with isNew := false }, db := Function.update db c.bk s }

/-- `func (c *contractSnapshotImpl) OnData(bs []byte, builder merkle.Builder) error`:
the receiver afterwards and the error. -/
def contractSnapshotImpl.OnData (c : contractSnapshotImpl) (bs : Bytes) :
    contractSnapshotImpl × Option Error :=
  ({ c with code := bs }, none)

/-- A call `builder.RequestData(id, key, requester)`; the requester is recorded
by its value at the time of the call. -/
structure DataRequest where
  id : BucketID
  key : Bytes
  requester : contractSnapshotImpl
  deriving DecidableEq, Repr

/-- Outcome of `Resolve`: the error, the receiver afterwards and the requests
registered with the builder. -/
structure ResolveResult where
  err : Option Error
  self : contractSnapshotImpl
  requests : List DataRequest
  deriving DecidableEq, Repr

/-- `func (c *contractSnapshotImpl) Resolve(builder merkle.Builder) error`. -/
def contractSnapshotImpl.Resolve {σ : Type} (B : Bucket σ) (db : Nat → σ)
    (c : contractSnapshotImpl) : ResolveResult :=
  match B.Get (db c.bk) c.codeHash with
  | .error err => { err := some err, self := c, requests := [] }
  | .ok code =>
    match code with
    | none =>
      { err := none, self := c,
        requests := [{ id := BucketID.BytesByHash, key := c.codeHash, requester := c }] }
    | some bs => { err := none, self := { c with code := some bs }, requests := [] }

/-! ## `contractImpl`, the mutable view -/

/-- The struct `contractImpl`: the embedded snapshot and the dirty hook.  The
hook is a closure of the owning account; it is kept by its identity and every
invocation is recorded in the effect trace. -/
structure contractImpl extends contractSnapshotImpl where
  markDirty : Nat
  deriving DecidableEq, Repr

/-- Outcome of `SetCode`: the error, the receiver afterwards and the hooks
invoked, in order. -/
structure SetCodeResult where
  err : Option Error
  self : contractImpl
  dirty : List Nat
  deriving DecidableEq, Repr

/-- `func (c *contractImpl) SetCode(code []byte) error`. -/
def contractImpl.SetCode (sha3 : List Nat → List Nat) (c : contractImpl) (code : Bytes) :
    SetCodeResult :=
  if len code = 0 then
    { err := none, self := { c with code := none, codeHash := none }, dirty := [c.markDirty] }
  else
    let codeHash := SHA3Sum256 sha3 code
    if bytesEqual codeHash c.codeHash then
      { err := none, self := c, dirty := [] }
    else
      { err := none,
        self := { c with code := code, codeHash := codeHash, isNew := true },
        dirty := [c.markDirty] }

/-- `func (c *contractImpl) getSnapshot() *contractSnapshotImpl`, on values: a nil
receiver gives nil, otherwise a copy of the embedded snapshot. -/
def contractImpl.getSnapshot (c : Option contractImpl) : Option contractSnapshotImpl :=
  match c with
  | none => none
  | some v => some v.tocontractSnapshotImpl

/-- `func (c *contractImpl) reset(snapshot *contractSnapshotImpl)`, on values:
`c.contractSnapshotImpl = *snapshot`. -/
def contractImpl.reset (c : contractImpl) (snapshot : contractSnapshotImpl) : contractImpl :=
  { c with tocontractSnapshotImpl := snapshot }

/-- The zero value of `contractSnapshotImpl`. -/
def zeroSnapshot : contractSnapshotImpl :=
  { bk := 0, isNew := false, state := 0, contentType := "", eeType := "",
    deployTxHash := none, auditTxHash := none, codeHash := none, code := none, params := none }

/-- `func newContractState(snapshot *contractSnapshotImpl, markDirty func()) *contractImpl`,
on values: nil for a nil snapshot, otherwise a new view reset from the snapshot. -/
def newContractState (snapshot : Option contractSnapshotImpl) (markDirty : Nat) :
    Option contractImpl :=
  match snapshot with
  | none => none
  | some s =>
    let c : contractImpl := { tocontractSnapshotImpl := zeroSnapshot, markDirty := markDirty }
    some (c.reset s)

/-! ## Pointers -/

/-- An object in memory: a snapshot or a mutable view. -/
inductive Obj where
  | snapshot (s : contractSnapshotImpl)
  | contract (c : contractImpl)
  deriving DecidableEq, Repr

/-- Memory: the object at address `p` is `cells[p]?`; a new object is appended. -/
structure Heap where
  cells : List Obj
  deriving DecidableEq, Repr

/-- Allocation: the new heap and the address of the new object. -/
def Heap.alloc (h : Heap) (o : Obj) : Heap × Nat :=
  ({ cells := h.cells ++ [o] }, h.cells.length)

/-- What a `*contractSnapshotImpl` with address `p` points to.  The snapshot
embedded in a `contractImpl` is its first field and shares its address. -/
def Heap.snapshotAt (h : Heap) (p : Nat) : Option contractSnapshotImpl :=
  match h.cells[p]? with
  | some (Obj.snapshot s) => some s
  | some (Obj.contract c) => some c.tocontractSnapshotImpl
  | none => none

/-- What a `*contractImpl` with address `p` points to. -/
def Heap.contractAt (h : Heap) (p : Nat) : Option contractImpl :=
  match h.cells[p]? with
  | some (Obj.contract c) => some c
  | _ => none

/-- `newContractState` through pointers: the view is a new object. -/
def Heap.newContractState (h : Heap) (snapshot : Option Nat) (markDirty : Nat) :
    Heap × Option Nat :=
  match snapshot with
  | none => (h, none)
  | some p =>
    match Goloop.newContractState (h.snapshotAt p) markDirty with
    | none => (h, none)
    | some c => ((h.alloc (Obj.contract c)).1, some (h.alloc (Obj.contract c)).2)

/-- `(*contractImpl).SetCode` through a pointer: the object at `p` is
overwritten with the receiver after the call. -/
def Heap.SetCode (sha3 : List Nat → List Nat) (h : Heap) (p : Nat) (code : Bytes) : Heap :=
  match h.contractAt p with
  | none => h
  | some c => { cells := h.cells.set p (Obj.contract (c.SetCode sha3 code).self) }

/-- A sequence of `SetCode` calls on the view at `p`. -/
def Heap.SetCodes (sha3 : List Nat → List Nat) (h : Heap) (p : Nat) (codes : List Bytes) :
    Heap :=
  codes.foldl (fun acc code => Heap.SetCode sha3 acc p code) h

/-- `(*contractImpl).getSnapshot` through pointers: the copy is a new object. -/
def Heap.getSnapshot (h : Heap) (c : Option Nat) : Heap × Option Nat :=
  match c with
  | none => (h, none)
  | some p =>
    match contractImpl.getSnapshot (h.contractAt p) with
    | none => (h, none)
    | some s => ((h.alloc (Obj.snapshot s)).1, some (h.alloc (Obj.snapshot s)).2)

/-- How a call ends: it returns a value or it panics. -/
inductive Outcome (α : Type) where
  | ret (a : α)
  | panic (msg : String)
  deriving DecidableEq, Repr

/-- Sequencing of statements: a panic ends the function. -/
def Outcome.bind {α β : Type} (x : Outcome α) (f : α → Outcome β) : Outcome β :=
  match x with
  | Outcome.ret a => f a
  | Outcome.panic msg => Outcome.panic msg

/-- Modelled from the spec: `log.Panicf` (package `common/log`, not among the
sources) logs the message and panics; violations of the calling protocol are
fatal and halt the operation (§7), the read-only view overrides the mutator
to panic (§9). -/
def logPanicf (msg : String) : Outcome Unit := Outcome.panic msg

/-- A value of the interface `ContractSnapshot`: the nil interface, a
`*contractSnapshotImpl` (which may itself be a nil pointer) or a value of
another implementation. -/
inductive ContractSnapshot where
  | nil
  | impl (p : Option Nat)
  | other (tag : Nat)
  deriving DecidableEq, Repr

/-- `func (c *contractSnapshotImpl) Equal(s ContractSnapshot) bool`. -/
def contractSnapshotImpl.Equal (h : Heap) (c : Option Nat) (s : ContractSnapshot) :
    Outcome Bool :=
  match s with
  | ContractSnapshot.impl c2 =>
    if c = c2 then Outcome.ret true
    else
      match c, c2 with
      | some p, some p2 =>
        match h.snapshotAt p, h.snapshotAt p2 with
        | some a, some b =>
          Outcome.ret (decide (a.state = b.state) &&
            bytesEqual a.deployTxHash b.deployTxHash &&
            bytesEqual a.auditTxHash b.auditTxHash &&
            bytesEqual a.codeHash b.codeHash)
        | _, _ => Outcome.panic "invalid memory address"
      | _, _ => Outcome.ret false
  | _ => (logPanicf "Invalid object").bind (fun _ => Outcome.ret true)

/-- The struct `contractROState`: the embedded `ContractSnapshot`. -/
structure contractROState where
  ContractSnapshot : ContractSnapshot
  deriving DecidableEq, Repr

/-- `func (c *contractROState) SetCode(code []byte) error`: the outcome and the
memory afterwards. -/
def contractROState.SetCode (h : Heap) (_c : contractROState) (_code : Bytes) :
    Outcome (Option Error) × Heap :=
  ((logPanicf "contractROState().SetCode() is invoked").bind
    (fun _ => Outcome.ret (some Error.InvalidStateError)), h)

/-- `func newContractROState(snapshot ContractSnapshot) Contract`: `none` is the
nil `Contract`. -/
def newContractROState (snapshot : ContractSnapshot) : Option contractROState :=
  if snapshot = ContractSnapshot.nil then none
  else some { ContractSnapshot := snapshot }

/-- The fields of a snapshot other than codeHash, code and isNew agree. -/
def sameFrame (a b : contractSnapshotImpl) : Prop :=
  a.bk = b.bk ∧ a.state = b.state ∧ a.contentType = b.contentType ∧ a.eeType = b.eeType ∧
  a.deployTxHash = b.deployTxHash ∧ a.auditTxHash = b.auditTxHash ∧ a.params = b.params

/-- The invariant of snapshots and views: resident code, when non-empty, hashes
to codeHash. -/
def codeInv (sha3 : List Nat → List Nat) (c : contractSnapshotImpl) : Prop :=
  len c.code ≠ 0 → content c.codeHash = sha3 (content c.code)

/-- The invariant can be evaluated. -/
instance codeInvDecidable (sha3 : List Nat → List Nat) (c : contractSnapshotImpl) :
    Decidable (codeInv sha3 c) :=
  inferInstanceAs (Decidable (len c.code ≠ 0 → content c.codeHash = sha3 (content c.code)))

/-- Every non-empty value read from the bucket state `st` is stored under its
own digest. -/
def keyedByHash {σ : Type} (sha3 : List Nat → List Nat) (B : Bucket σ) (st : σ) : Prop :=
  ∀ (k v : Bytes), B.Get st k = Except.ok v → len v ≠ 0 → content k = sha3 (content v)

/-! ## The service manager (`service/manager.go`) -/

/-- A transaction as the pools see it: its id and its timestamp. -/
structure Transaction where
  id : List Nat
  timestamp : Int
  deriving DecidableEq, Repr

/-- Modelled from the spec: `TransactionPool` (`service/txpool.go` is not among
the sources): the pending transactions in arrival order (§4.2). -/
structure TransactionPool where
  list : List Transaction
  deriving DecidableEq, Repr

/-- Modelled from the spec: `RemoveList(txs)` removes exactly the given
transactions; absence of a transaction is not an error (§4.2). -/
def TransactionPool.RemoveList (tp : TransactionPool) (txs : List Transaction) :
    TransactionPool :=
  { list := tp.list.filter (fun tx => !(txs.any (fun r => r.id == tx.id))) }

/-- Modelled from the spec: `RemoveOldTXs(bts)` evicts all pooled transactions
whose timestamp precedes the cutoff (§4.2). -/
def TransactionPool.RemoveOldTXs (tp : TransactionPool) (bts : Int) : TransactionPool :=
  { list := tp.list.filter (fun tx => !(decide (tx.timestamp < bts))) }

/-- The struct `blockInfo`. -/
structure blockInfo where
  height : Int
  timestamp : Int
  deriving DecidableEq, Repr

/-- `func (bi *blockInfo) Timestamp() int64`. -/
def blockInfo.Timestamp (bi : blockInfo) : Int := bi.timestamp

/-- Modelled from the spec: the struct `transition` (`service/transition.go` is
not among the sources), with the fields `manager.go` reads: the two transaction
lists, the block info, the step and the handle of the world snapshot (§3). -/
structure transition where
  patchTransactions : List Transaction
  normalTransactions : List Transaction
  bi : blockInfo
  step : Int
  worldSnapshot : Nat
  deriving DecidableEq, Repr

/-- A value of the interface `module.Transition`: the nil interface, a non-nil
pointer to a `transition`, a nil `*transition` held in a (non-nil) interface,
or a value of another implementation. -/
inductive Transition where
  | nil
  | ptr (t : transition)
  | other (tag : Nat)
  | nilPtr
  deriving DecidableEq, Repr

/-- The two metrics of the manager (`metric.TxTypePatch`, `metric.TxTypeNormal`). -/
inductive TxType where
  | patch
  | normal
  deriving DecidableEq, Repr

/-- Calls the manager makes into its collaborators. -/
inductive Event where
  | WorldStateFromSnapshot (ws : Nat)
  | Candidate (pool : TxType) (maxBytes maxCount : Int)
  | newTransition (parent : Option transition) (patches : Option (List Transaction))
      (normals : List Transaction) (bi : blockInfo) (alreadyValidated : Bool)
  | finalizeNormalTransaction
  | finalizePatchTransaction
  | finalizeResult
  | OnFinalize (metric : TxType) (txs : List Transaction) (now : Nat)
  deriving DecidableEq, Repr

/-- The fields of the struct `manager` the functions below use: the two pools,
and the values its collaborators report (`tsc.Threshold()`,
`chain.Regulator().MaxTxCount()`, `chain.MaxBlockTxBytes()`). -/
structure manager where
  patchTxPool : TransactionPool
  normalTxPool : TransactionPool
  threshold : Int
  maxTxCount : Int
  maxBlockTxBytes : Int
  deriving DecidableEq, Repr

/-- Collaborators of the manager that are not among the sources, as parameters:
the constant `stepComplete`, the pool's `Candidate` and the constructor
`newTransition`. -/
structure Collaborators where
  stepComplete : Int
  Candidate : TransactionPool → Nat → blockInfo → Int → Int → List Transaction
  newTransition : Option transition → Option (List Transaction) → List Transaction →
    blockInfo → Bool → transition

/-- A call: how it ends and the calls into collaborators it made. -/
structure Call (α : Type) where
  out : Outcome α
  events : List Event

/-- `func (m *manager) checkTransitionResult(t module.Transition) (*transition, error)`.
A nil `*transition` passes `t == nil` and the type assertion; reading
`tst.step` then panics. -/
def manager.checkTransitionResult (stepComplete : Int) (t : Transition) :
    Outcome (Option transition × Option Error) :=
  match t with
  | Transition.nil => Outcome.ret (none, none)
  | Transition.ptr tst =>
    if tst.step ≠ stepComplete then Outcome.ret (none, some Error.ErrIllegalArgument)
    else Outcome.ret (some tst, none)
  | Transition.other _ => Outcome.ret (none, some Error.ErrIllegalArgument)
  | Transition.nilPtr => Outcome.panic "nil pointer dereference"

/-- `func (m *manager) ProposeTransition(parent module.Transition, bi module.BlockInfo)
(module.Transition, error)`.  With a nil parent `pt` is nil and reading
`pt.worldSnapshot` panics. -/
def manager.ProposeTransition (K : Collaborators) (m : manager) (parent : Transition)
    (bi : blockInfo) : Call (Transition × Option Error) :=
  match manager.checkTransitionResult K.stepComplete parent with
  | Outcome.panic msg => { out := Outcome.panic msg, events := [] }
  | Outcome.ret (_, some err) => { out := Outcome.ret (Transition.nil, some err), events := [] }
  | Outcome.ret (none, none) => { out := Outcome.panic "nil pointer dereference", events := [] }
  | Outcome.ret (some pt, none) =>
    let normalTxs :=
      K.Candidate m.normalTxPool pt.worldSnapshot bi m.maxBlockTxBytes m.maxTxCount
    { out := Outcome.ret
        (Transition.ptr (K.newTransition (some pt) (some []) normalTxs bi true), none),
      events :=
        [Event.WorldStateFromSnapshot pt.worldSnapshot,
         Event.Candidate TxType.normal m.maxBlockTxBytes m.maxTxCount,
         Event.newTransition (some pt) (some []) normalTxs bi true] }

/-- `func (m *manager) CreateTransition(parent module.Transition,
txList module.TransactionList, bi module.BlockInfo) (module.Transition, error)`. -/
def manager.CreateTransition (K : Collaborators) (_m : manager) (parent : Transition)
    (txList : List Transaction) (bi : blockInfo) : Call (Transition × Option Error) :=
  match manager.checkTransitionResult K.stepComplete parent with
  | Outcome.panic msg => { out := Outcome.panic msg, events := [] }
  | Outcome.ret (_, some err) => { out := Outcome.ret (Transition.nil, some err), events := [] }
  | Outcome.ret (pt, none) =>
    { out := Outcome.ret (Transition.ptr (K.newTransition pt none txList bi false), none),
      events := [Event.newTransition pt none txList bi false] }

/-- Modelled from the spec: `module.FinalizeNormalTransaction`, the first bit of
the option mask of `Finalize` (§6; package `module` is not among the sources). -/
def FinalizeNormalTransaction : Int := 1

/-- Modelled from the spec: `module.FinalizePatchTransaction`, the second bit. -/
def FinalizePatchTransaction : Int := 2

/-- Modelled from the spec: `module.FinalizeResult`, the third bit. -/
def FinalizeResult : Int := 4

/-- The value of an `int64` expression: the mathematical result wrapped into
the 64-bit signed range. -/
def int64 (x : Int) : Int := (x + 2 ^ 63) % 2 ^ 64 - 2 ^ 63

/-- What the commit steps of the transition (`finalizeNormalTransaction`,
`finalizePatchTransaction`, `finalizeResult`, in `service/transition.go`)
return during one call of `Finalize`. -/
structure CommitSteps where
  finalizeNormalTransaction : Option Error
  finalizePatchTransaction : Option Error
  finalizeResult : Option Error
  deriving DecidableEq, Repr

/-- Outcome of `Finalize`: how it ends, the manager afterwards and the calls
made into the transition and the metrics. -/
structure FinalizeOut where
  out : Outcome (Option Error)
  m : manager
  events : List Event
  deriving DecidableEq, Repr

/-- `func (m *manager) Finalize(t module.Transition, opt int) error`; `now` is
the value of `time.Now()`.  With a nil `*transition` the type assertion
succeeds: the commit steps are calls on the nil receiver (what they return is
given by `steps`) and the first read of a field of `tst` panics. -/
def manager.Finalize (steps : CommitSteps) (now : Nat) (m0 : manager) (t : Transition)
    (opt : Int) : FinalizeOut := Id.run do
  let mut m := m0
  let mut events : List Event := []
  match t with
  | Transition.ptr tst =>
    if Int.land opt FinalizeNormalTransaction = FinalizeNormalTransaction then
      events := events ++ [Event.finalizeNormalTransaction]
      if let some err := steps.finalizeNormalTransaction then
        return { out := Outcome.ret (some err), m := m, events := events }
      m := { m with normalTxPool := m.normalTxPool.RemoveList tst.normalTransactions }
      m := { m with normalTxPool :=
        m.normalTxPool.RemoveOldTXs (int64 (tst.bi.Timestamp - m.threshold)) }
    if Int.land opt FinalizePatchTransaction = FinalizePatchTransaction then
      events := events ++ [Event.finalizePatchTransaction]
      if let some err := steps.finalizePatchTransaction then
        return { out := Outcome.ret (some err), m := m, events := events }
      m := { m with patchTxPool := m.patchTxPool.RemoveList tst.patchTransactions }
      m := { m with patchTxPool :=
        m.patchTxPool.RemoveOldTXs (int64 (tst.bi.Timestamp - m.threshold)) }
    if Int.land opt FinalizeResult = FinalizeResult then
      events := events ++ [Event.finalizeResult]
      if let some err := steps.finalizeResult then
        return { out := Outcome.ret (some err), m := m, events := events }
      events := events ++ [Event.OnFinalize TxType.patch tst.patchTransactions now]
      events := events ++ [Event.OnFinalize TxType.normal tst.normalTransactions now]
    return { out := Outcome.ret none, m := m, events := events }
  | Transition.nilPtr =>
    if Int.land opt FinalizeNormalTransaction = FinalizeNormalTransaction then
      events := events ++ [Event.finalizeNormalTransaction]
      if let some err := steps.finalizeNormalTransaction then
        return { out := Outcome.ret (some err), m := m, events := events }
      return { out := Outcome.panic "nil pointer dereference", m := m, events := events }
    if Int.land opt FinalizePatchTransaction = FinalizePatchTransaction then
      events := events ++ [Event.finalizePatchTransaction]
      if let some err := steps.finalizePatchTransaction then
        return { out := Outcome.ret (some err), m := m, events := events }
      return { out := Outcome.panic "nil pointer dereference", m := m, events := events }
    if Int.land opt FinalizeResult = FinalizeResult then
      events := events ++ [Event.finalizeResult]
      if let some err := steps.finalizeResult then
        return { out := Outcome.ret (some err), m := m, events := events }
      return { out := Outcome.panic "nil pointer dereference", m := m, events := events }
    return { out := Outcome.ret none, m := m, events := events }
  | _ =>
    return { out := Outcome.panic "FAIL type assertion. Not transition pointer type",
             m := m, events := events }

/-- What `Finalize` does to a pool when the component's bit is set: the listed
transactions and those older than the cutoff leave the pool. -/
def finalizedPool (tp : TransactionPool) (txs : List Transaction) (t : transition)
    (m : manager) : TransactionPool :=
  (tp.RemoveList txs).RemoveOldTXs (int64 (t.bi.Timestamp - m.threshold))

/-- A manager with three normal and two patch transactions pending. -/
def sampleManager : manager :=
  { patchTxPool := { list := [{ id := [9], timestamp := 50 }, { id := [8], timestamp := 500 }] },
    normalTxPool :=
      { list := [{ id := [1], timestamp := 100 }, { id := [2], timestamp := 20 },
                 { id := [3], timestamp := 300 }] },
    threshold := 60, maxTxCount := 10, maxBlockTxBytes := 1024 }

/-- A transition in step 4 (taken as `stepComplete` below) that carries the
normal transaction `[1]` and the patch transaction `[9]`, block timestamp 100. -/
def sampleTransition : transition :=
  { patchTransactions := [{ id := [9], timestamp := 50 }],
    normalTransactions := [{ id := [1], timestamp := 100 }],
    bi := { height := 5, timestamp := 100 }, step := 4, worldSnapshot := 0 }

/-- Commit steps that all succeed. -/
def stepsOk : CommitSteps :=
  { finalizeNormalTransaction := none, finalizePatchTransaction := none,
    finalizeResult := none }

/-- Collaborators for evaluation: `stepComplete` is 4, `Candidate` offers the
whole pool, `newTransition` builds a transition in step 0. -/
def sampleCollaborators : Collaborators :=
  { stepComplete := 4,
    Candidate := fun tp _ _ _ _ => tp.list,
    newTransition := fun _ patches normals bi _ =>
      { patchTransactions := patches.getD [], normalTransactions := normals, bi := bi,
        step := 0, worldSnapshot := 0 } }

/-- A view over an inactive contract without code, bucket 0, hook 7. -/
def sampleContract : contractImpl :=
  { bk := 0, isNew := false, state := 1, contentType := "application/zip", eeType := "python",
    deployTxHash := some [1], auditTxHash := none, codeHash := none, code := none,
    params := none, markDirty := 7 }

/-- A snapshot without resident code, over bucket 0. -/
def sampleSnapshot : contractSnapshotImpl :=
  { bk := 0, isNew := false, state := 2, contentType := "application/zip", eeType := "python",
    deployTxHash := some [1], auditTxHash := none, codeHash := some (toySHA3 [9]),
    code := none, params := none }

/-- The same contract with its code `[9]` loaded, newly written, over bucket 3. -/
def sampleLoaded : contractSnapshotImpl :=
  { bk := 3, isNew := true, state := 2, contentType := "application/zip", eeType := "python",
    deployTxHash := some [1], auditTxHash := some [], codeHash := some (toySHA3 [9]),
    code := some [9], params := none }

/-- Memory holding `sampleSnapshot` at address 0 and `sampleLoaded` at address 1. -/
def sampleHeap : Heap :=
  { cells := [Obj.snapshot sampleSnapshot, Obj.snapshot sampleLoaded] }

/-- A view whose codeHash already is the digest of `[1, 2, 3]` while the code is
neither resident nor newly written (as after decoding a synced snapshot). -/
def staleContract : contractImpl :=
  { bk := 0, isNew := false, state := 2, contentType := "application/zip", eeType := "python",
    deployTxHash := some [1], auditTxHash := none, codeHash := some (toySHA3 [1, 2, 3]),
    code := none, params := none, markDirty := 7 }

/-- Buckets that hold nothing. -/
def emptyDB : Nat → List (List Nat × List Nat) := fun _ => []

/-- A snapshot over bucket 0 whose codeHash is the digest of `[1, 2, 3]` and whose
code is not resident. -/
def unloadedSnapshot : contractSnapshotImpl :=
  { bk := 0, isNew := false, state := 2, contentType := "application/zip", eeType := "python",
    deployTxHash := some [1], auditTxHash := none, codeHash := some (toySHA3 [1, 2, 3]),
    code := none, params := none }

/-- Buckets that hold `[1, 2, 3]` under its digest. -/
def storedDB : Nat → List (List Nat × List Nat) := fun _ => [(toySHA3 [1, 2, 3], [1, 2, 3])]

/-! ## The service manager: patches, parsing, queries -/

/-- A non-nil value of the interface `module.Patch`: its concrete (dynamic)
type, what `Type()` returns, whether the value also implements
`module.SkipTransactionPatch` (and then what `Height()` returns), and its data. -/
structure Patch where
  concrete : Nat
  type : String
  skipHeight : Option Int
  data : Bytes
  deriving DecidableEq, Repr

/-- `(*atomic.Value).Store` of the Go library on a slot that holds patches: the
first store fixes the concrete type, and a store of a value of another
concrete type panics and leaves the slot as it is. -/
def atomicValueStore (v : Option Patch) (val : Patch) : Outcome (Option Patch) :=
  match v with
  | none => Outcome.ret (some val)
  | some old =>
    if old.concrete = val.concrete then Outcome.ret (some val)
    else Outcome.panic "sync/atomic: store of inconsistently typed value into Value"

/-- `func (m *manager) SendPatch(data module.Patch) error`: how the call ends
and the slot afterwards.  The slot `m.skipTxPatch` (an `atomic.Value`) is
passed in and out; `data` is `none` for the nil interface, on which
`data.Type()` panics; the constant `module.PatchTypeSkipTransaction` is a
parameter. -/
def manager.SendPatch (PatchTypeSkipTransaction : String) (skipTxPatch : Option Patch)
    (data : Option Patch) : Outcome (Option Error) × Option Patch :=
  match data with
  | none => (Outcome.panic "nil pointer dereference", skipTxPatch)
  | some d =>
    if d.type = PatchTypeSkipTransaction then
      match d.skipHeight with
      | none => (Outcome.ret (some Error.InvalidPatchDataError), skipTxPatch)
      | some height =>
        if height < 1 then (Outcome.ret (some Error.InvalidPatchDataError), skipTxPatch)
        else
          match atomicValueStore skipTxPatch d with
          | Outcome.panic msg => (Outcome.panic msg, skipTxPatch)
          | Outcome.ret v => (Outcome.ret none, v)
    else (Outcome.ret (some Error.InvalidPatchDataError), skipTxPatch)

/-- Outcome of `TransactionFromBytes`: the returned pair and the errors written
to the log. -/
structure FromBytesResult where
  tx : Option Transaction
  err : Option Error
  logged : List Error
  deriving DecidableEq, Repr

/-- `func (m *manager) TransactionFromBytes(b []byte, blockVersion int)
(module.Transaction, error)`; the parser `transaction.NewTransaction` is a
parameter that returns a Go pair. -/
def manager.TransactionFromBytes (NewTransaction : Bytes → Option Transaction × Option Error)
    (b : Bytes) (_blockVersion : Int) : FromBytesResult :=
  match NewTransaction b with
  | (tx, some err) => { tx := tx, err := none, logged := [err] }
  | (tx, none) => { tx := tx, err := none, logged := [] }

/-- `func (m *manager) GenesisTransactionFromBytes(b []byte, blockVersion int)
(module.Transaction, error)`; the parser `transaction.NewGenesisTransaction` is
a parameter. -/
def manager.GenesisTransactionFromBytes
    (NewGenesisTransaction : Bytes → Option Transaction × Option Error)
    (b : Bytes) (_blockVersion : Int) : FromBytesResult :=
  match NewGenesisTransaction b with
  | (tx, some err) => { tx := tx, err := none, logged := [err] }
  | (tx, none) => { tx := tx, err := none, logged := [] }

/-- `func (m *manager) ReceiptListFromResult(result []byte, g module.TransactionGroup)
(module.ReceiptList, error)`; the cache lookup `m.trc.GetReceipts` is a
parameter, a receipt list is kept by a handle. -/
def manager.ReceiptListFromResult (GetReceipts : Bytes → TxType → Except Error Nat)
    (result : Bytes) (g : TxType) : Option Nat × Option Error :=
  match GetReceipts result g with
  | Except.error err => (none, some err)
  | Except.ok rl => (some rl, none)

/-- A non-nil value of the interface `module.Address`; where a function takes
an address, `none` is the nil interface. -/
structure Address where
  isContract : Bool
  id : List Nat
  deriving DecidableEq, Repr

/-- What the manager reads from a `state.AccountSnapshot`: the balance and the
API info (nil without an active contract). -/
structure AccountSnapshot where
  balance : Int
  apiInfo : Option Nat
  deriving DecidableEq, Repr

/-- What the manager reads from a `state.WorldSnapshot`. -/
structure WorldSnapshot where
  GetAccountSnapshot : List Nat → Option AccountSnapshot

/-- The system variables the manager reads through `scoredb.NewVarDB`. -/
inductive SysVar where
  | VarTotalSupply
  | VarNetwork
  | VarRoundLimitFactor
  | VarMinimizeBlockGen
  deriving DecidableEq, Repr

/-- The local struct `callJSON` of `Call`. -/
structure callJSON where
  To : Address
  DataType : Option String
  Data : Bytes
  deriving DecidableEq, Repr

/-- Collaborators of the query functions that live in other packages, as
parameters: the transition-result cache, the system account id, the `scoredb`
readers, `contract.RoundLimitFactorToRound`, `newMemberList`, the JSON parser,
the constant `transaction.DataTypeCall`, the query handler and the constant
`module.StatusSuccess`. -/
structure QueryCollaborators where
  GetWorldSnapshot : Bytes → Bytes → Except Error WorldSnapshot
  SystemID : List Nat
  VarBigInt : Option AccountSnapshot → SysVar → Option Int
  VarBytes : Option AccountSnapshot → SysVar → Bytes
  VarInt64 : Option AccountSnapshot → SysVar → Int
  VarBool : Option AccountSnapshot → SysVar → Bool
  RoundLimitFactorToRound : Int → Int → Int
  newMemberList : Option AccountSnapshot → Nat
  jsonUnmarshal : Bytes → Option callJSON
  DataTypeCall : String
  Query : WorldSnapshot → blockInfo → Address → Bytes → Int × Nat
  StatusSuccess : Int

/-- `func (m *manager) Call(resultHash []byte, vl module.ValidatorList, js []byte,
bi module.BlockInfo) (interface{}, error)`; a validator list is given by what
its `Hash()` returns, `none` is the nil interface, on which `vl.Hash()`
panics; the result is kept by a handle. -/
def manager.Call (Q : QueryCollaborators) (resultHash : Bytes) (vl : Option Bytes) (js : Bytes)
    (bi : blockInfo) : Outcome (Option Nat × Option Error) :=
  match Q.jsonUnmarshal js with
  | none => Outcome.ret (none, some Error.InvalidQueryError)
  | some jso =>
    if jso.DataType = none ∨ jso.DataType ≠ some Q.DataTypeCall then
      Outcome.ret (none, some Error.InvalidQueryError)
    else
      match vl with
      | none => Outcome.panic "nil pointer dereference"
      | some vlHash =>
        match Q.GetWorldSnapshot resultHash vlHash with
        | Except.error err => Outcome.ret (none, some err)
        | Except.ok wss =>
          match Q.Query wss bi jso.To jso.Data with
          | (status, result) =>
            if status ≠ Q.StatusSuccess then
              Outcome.ret (none, some (Error.ScoreError status))
            else Outcome.ret (some result, none)

/-- `func (m *manager) GetBalance(result []byte, addr module.Address) (*big.Int, error)`;
`addr.ID()` is evaluated after the lookup and panics on the nil interface. -/
def manager.GetBalance (Q : QueryCollaborators) (result : Bytes) (addr : Option Address) :
    Outcome (Option Int × Option Error) :=
  match Q.GetWorldSnapshot result none with
  | Except.error err => Outcome.ret (none, some err)
  | Except.ok wss =>
    match addr with
    | none => Outcome.panic "nil pointer dereference"
    | some a =>
      match wss.GetAccountSnapshot a.id with
      | none => Outcome.ret (some 0, none)
      | some ass => Outcome.ret (some ass.balance, none)

/-- `func (m *manager) GetTotalSupply(result []byte) (*big.Int, error)`. -/
def manager.GetTotalSupply (Q : QueryCollaborators) (result : Bytes) :
    Option Int × Option Error :=
  match Q.GetWorldSnapshot result none with
  | Except.error err => (none, some err)
  | Except.ok wss =>
    match Q.VarBigInt (wss.GetAccountSnapshot Q.SystemID) SysVar.VarTotalSupply with
    | some ts => (some ts, none)
    | none => (some 0, none)

/-- `func (m *manager) GetNetworkID(result []byte) (int64, error)`. -/
def manager.GetNetworkID (Q : QueryCollaborators) (result : Bytes) : Int × Option Error :=
  match Q.GetWorldSnapshot result none with
  | Except.error err => (0, some err)
  | Except.ok wss =>
    if Q.VarBytes (wss.GetAccountSnapshot Q.SystemID) SysVar.VarNetwork = none then
      (0, some Error.NotFoundError)
    else (Q.VarInt64 (wss.GetAccountSnapshot Q.SystemID) SysVar.VarNetwork, none)

/-- `func (m *manager) GetAPIInfo(result []byte, addr module.Address)
(module.APIInfo, error)`; `addr.IsContract()` is evaluated first and panics on
the nil interface. -/
def manager.GetAPIInfo (Q : QueryCollaborators) (result : Bytes) (addr : Option Address) :
    Outcome (Option Nat × Option Error) :=
  match addr with
  | none => Outcome.panic "nil pointer dereference"
  | some a =>
    if a.isContract = false then Outcome.ret (none, some Error.NotContractAddressError)
    else
      match Q.GetWorldSnapshot result none with
      | Except.error err => Outcome.ret (none, some err)
      | Except.ok wss =>
        match wss.GetAccountSnapshot a.id with
        | none => Outcome.ret (none, some Error.NoActiveContractError)
        | some ass =>
          match ass.apiInfo with
          | none => Outcome.ret (none, some Error.NoActiveContractError)
          | some info => Outcome.ret (some info, none)

/-- `func (m *manager) GetMembers(result []byte) (module.MemberList, error)`. -/
def manager.GetMembers (Q : QueryCollaborators) (result : Bytes) : Option Nat × Option Error :=
  match Q.GetWorldSnapshot result none with
  | Except.error err => (none, some err)
  | Except.ok wss => (some (Q.newMemberList (wss.GetAccountSnapshot Q.SystemID)), none)

/-- `func (m *manager) GetRoundLimit(result []byte, vl int) int64`. -/
def manager.GetRoundLimit (Q : QueryCollaborators) (result : Bytes) (vl : Int) : Int :=
  match Q.GetWorldSnapshot result none with
  | Except.error _ => 0
  | Except.ok wss =>
    if Q.VarInt64 (wss.GetAccountSnapshot Q.SystemID) SysVar.VarRoundLimitFactor = 0 then 0
    else
      Q.RoundLimitFactorToRound vl
        (Q.VarInt64 (wss.GetAccountSnapshot Q.SystemID) SysVar.VarRoundLimitFactor)

/-- `func (m *manager) GetMinimizeBlockGen(result []byte) bool`. -/
def manager.GetMinimizeBlockGen (Q : QueryCollaborators) (result : Bytes) : Bool :=
  match Q.GetWorldSnapshot result none with
  | Except.error _ => false
  | Except.ok wss => Q.VarBool (wss.GetAccountSnapshot Q.SystemID) SysVar.VarMinimizeBlockGen

/-- A skip-transaction patch for height 5, of concrete type 1. -/
def samplePatch : Patch :=
  { concrete := 1, type := "skip_txs", skipHeight := some 5, data := some [1] }

/-- A parser that accepts exactly the byte string `[1]`. -/
def sampleParser (b : Bytes) : Option Transaction × Option Error :=
  if content b = [1] then (some { id := [1], timestamp := 100 }, none)
  else (none, some (Error.parse 1))

/-- Query collaborators whose cache knows no result hash at all; a payload
parses when it is non-empty. -/
def unknownResults : QueryCollaborators :=
  { GetWorldSnapshot := fun _ _ => Except.error Error.NotFoundError,
    SystemID := [0],
    VarBigInt := fun _ _ => none,
    VarBytes := fun _ _ => none,
    VarInt64 := fun _ _ => 0,
    VarBool := fun _ _ => false,
    RoundLimitFactorToRound := fun vl factor => vl * factor,
    newMemberList := fun _ => 0,
    jsonUnmarshal := fun js =>
      if len js = 0 then none
      else some { To := { isContract := true, id := [7] }, DataType := some "call", Data := js },
    DataTypeCall := "call",
    Query := fun _ _ _ _ => (0, 0),
    StatusSuccess := 0 }

/-- The map bucket state after a sequence of `Set` calls, in order. -/
def setAll (st : List (List Nat × List Nat)) (sets : List (Bytes × Bytes)) :
    List (List Nat × List Nat) :=
  sets.foldl
    (fun acc p =>
      match mapBucket.Set acc p.1 p.2 with
      | Except.ok s => s
      | Except.error _ => acc)
    st

/-! ## `common/codec.go` -/

mutual
/-- A Go value of type `interface{}`, by its dynamic type: the kinds the codec
and `convertType` tell apart, and `other` for every remaining type.  An address
is kept by its bytes, the integer kinds by their value. -/
inductive Value where
  | nil
  | bytes (b : Bytes)
  | hexBytes (b : Bytes)
  | bool (b : Bool)
  | string (s : String)
  | address (a : Bytes)
  | bigInt (i : Int)
  | hexInt (i : Int)
  | int (i : Int)
  | int8 (i : Int)
  | int16 (i : Int)
  | int32 (i : Int)
  | int64 (i : Int)
  | uint (u : Nat)
  | uint8 (u : Nat)
  | uint16 (u : Nat)
  | uint32 (u : Nat)
  | uint64 (u : Nat)
  | list (l : ValueList)
  | map (m : ValueMap)
  | other (type : Nat)
/-- The elements of a `[]interface{}`, in order. -/
inductive ValueList where
  | nil
  | cons (v : Value) (rest : ValueList)
/-- The entries of a `map[string]interface{}`. -/
inductive ValueMap where
  | nil
  | cons (k : String) (v : Value) (rest : ValueMap)
end

/-- The elements of a list value as a list. -/
def ValueList.toList : ValueList → List Value
  | ValueList.nil => []
  | ValueList.cons v rest => v :: rest.toList

/-- The entries of a map value as a list of pairs. -/
def ValueMap.toList : ValueMap → List (String × Value)
  | ValueMap.nil => []
  | ValueMap.cons k v rest => (k, v) :: rest.toList

/-- Parts of the packages `common` and `common/codec` that `codec.go` uses and
that live in other files, as parameters: the constant `codec.TypeCustom`,
`NewAddress`, `new(HexInt).SetBytes`, the `Bytes()` of an address and of a
`HexInt`, `BigIntToBytes`, `Int64ToBytes`, and the constants `codec.TrueBytes`
and `codec.FalseBytes`. -/
structure CodecParts where
  TypeCustom : Nat
  NewAddress : Bytes → Value
  HexIntSetBytes : Bytes → Int
  AddressBytes : Bytes → Bytes
  HexIntBytes : Int → Bytes
  BigIntToBytes : Int → Bytes
  Int64ToBytes : Int → Bytes
  TrueBytes : Bytes
  FalseBytes : Bytes

/-- `TypeAddress = iota + codec.TypeCustom`, the first constant of its block. -/
def TypeAddress (P : CodecParts) : Nat := 0 + P.TypeCustom

/-- `TypeInt`, the second constant of the block. -/
def TypeInt (P : CodecParts) : Nat := 1 + P.TypeCustom

/-- `func (*typeCodec) Decode(tag uint8, data []byte) (interface{}, error)`. -/
def typeCodec.Decode (P : CodecParts) (tag : Nat) (data : Bytes) : Value × Option Error :=
  if tag = TypeAddress P then (P.NewAddress data, none)
  else if tag = TypeInt P then (Value.hexInt (P.HexIntSetBytes data), none)
  else (Value.int 0, some (Error.InvalidTypeTag tag))

/-- Outcome of `Encode`: the tag, the bytes and the error. -/
structure EncodeResult where
  tag : Nat
  data : Bytes
  err : Option Error
  deriving DecidableEq, Repr

/-- `func (*typeCodec) Encode(o interface{}) (uint8, []byte, error)`. -/
def typeCodec.Encode (P : CodecParts) (o : Value) : EncodeResult :=
  match o with
  | Value.address a => { tag := TypeAddress P, data := P.AddressBytes a, err := none }
  | Value.bigInt i => { tag := TypeInt P, data := P.BigIntToBytes i, err := none }
  | Value.hexInt i => { tag := TypeInt P, data := P.HexIntBytes i, err := none }
  | Value.int i => { tag := TypeInt P, data := P.Int64ToBytes (int64 i), err := none }
  | Value.int16 i => { tag := TypeInt P, data := P.Int64ToBytes (int64 i), err := none }
  | Value.int32 i => { tag := TypeInt P, data := P.Int64ToBytes (int64 i), err := none }
  | Value.int64 i => { tag := TypeInt P, data := P.Int64ToBytes i, err := none }
  | Value.uint u => { tag := TypeInt P, data := P.Int64ToBytes (int64 u), err := none }
  | Value.uint16 u => { tag := TypeInt P, data := P.Int64ToBytes (int64 u), err := none }
  | Value.uint32 u => { tag := TypeInt P, data := P.Int64ToBytes (int64 u), err := none }
  | Value.uint64 u => { tag := TypeInt P, data := P.BigIntToBytes u, err := none }
  | _ => { tag := 0, data := none, err := some Error.UnknownType }

mutual
/-- `func convertType(o interface{}) (interface{}, error)`. -/
def convertType (P : CodecParts) : Value → Value × Option Error
  | Value.bytes b => (Value.hexBytes b, none)
  | Value.bool b =>
    (Value.hexInt (if b then P.HexIntSetBytes P.TrueBytes else P.HexIntSetBytes P.FalseBytes),
      none)
  | Value.list l =>
    match convertList P l with
    | (_, some err) => (Value.nil, some err)
    | (l2, none) => (Value.list l2, none)
  | Value.map m =>
    match convertMap P m with
    | (_, some err) => (Value.nil, some err)
    | (m2, none) => (Value.map m2, none)
  | o => (o, none)
/-- The loop of `convertType` over the elements of a list: the first error ends it. -/
def convertList (P : CodecParts) : ValueList → ValueList × Option Error
  | ValueList.nil => (ValueList.nil, none)
  | ValueList.cons o rest =>
    match convertType P o with
    | (_, some err) => (ValueList.nil, some err)
    | (co, none) =>
      match convertList P rest with
      | (_, some err) => (ValueList.nil, some err)
      | (l, none) => (ValueList.cons co l, none)
/-- The loop of `convertType` over the entries of a map: the first error ends it. -/
def convertMap (P : CodecParts) : ValueMap → ValueMap × Option Error
  | ValueMap.nil => (ValueMap.nil, none)
  | ValueMap.cons k o rest =>
    match convertType P o with
    | (_, some err) => (ValueMap.nil, some err)
    | (co, none) =>
      match convertMap P rest with
      | (_, some err) => (ValueMap.nil, some err)
      | (m, none) => (ValueMap.cons k co m, none)
end

/-- `func DecodeAny(o *codec.TypedObj) (interface{}, error)`:
`codec.DecodeAny(TypeCodec, o)`, which is a parameter. -/
def DecodeAny {τ : Type} (codecDecodeAny : τ → Value × Option Error) (o : τ) :
    Value × Option Error :=
  codecDecodeAny o

/-- `func DecodeAnyForResponse(o *codec.TypedObj) (interface{}, error)`. -/
def DecodeAnyForResponse {τ : Type} (P : CodecParts)
    (codecDecodeAny : τ → Value × Option Error) (o : τ) : Value × Option Error :=
  match codecDecodeAny o with
  | (value, some err) => (value, some err)
  | (value, none) => convertType P value

/-- Codec parts for evaluation: `TypeCustom` is 10, integers are written as
one byte, an address and a `HexInt` give back their bytes. -/
def sampleParts : CodecParts :=
  { TypeCustom := 10,
    NewAddress := fun data => Value.address data,
    HexIntSetBytes := fun data => ((content data).headD 0 : Nat),
    AddressBytes := fun a => a,
    HexIntBytes := fun i => some [i.toNat % 256],
    BigIntToBytes := fun i => some [i.toNat % 256],
    Int64ToBytes := fun i => some [i.toNat % 256],
    TrueBytes := some [1],
    FalseBytes := some [0] }

/-- A decoder for evaluation: a typed object is a number; 0 does not decode,
any other decodes to a list that holds a byte string and a boolean. -/
def sampleDecodeAny (o : Nat) : Value × Option Error :=
  if o = 0 then (Value.nil, some (Error.parse 0))
  else
    (Value.list (ValueList.cons (Value.bytes (some [o]))
      (ValueList.cons (Value.bool true) ValueList.nil)), none)

/-! ## Theorems -/

/-- `SetCode` with empty code: the clearing branch. -/
theorem SetCode_of_empty (sha3 : List Nat → List Nat) (c : contractImpl) (code : Bytes)
    (h : len code = 0) :
    c.SetCode sha3 code =
      { err := none, self := { c with code := none, codeHash := none },
        dirty := [c.markDirty] } := by
  simp only [contractImpl.SetCode, if_pos h]

/-- `SetCode` with code whose digest is the current codeHash: nothing happens. -/
theorem SetCode_of_same (sha3 : List Nat → List Nat) (c : contractImpl) (code : Bytes)
    (h : len code ≠ 0) (hs : bytesEqual (SHA3Sum256 sha3 code) c.codeHash = true) :
    c.SetCode sha3 code = { err := none, self := c, dirty := [] } := by
  simp only [contractImpl.SetCode, if_neg h, hs, if_true]

/-- `SetCode` with code whose digest differs from the current codeHash: the
replacing branch. -/
theorem SetCode_of_fresh (sha3 : List Nat → List Nat) (c : contractImpl) (code : Bytes)
    (h : len code ≠ 0) (hs : bytesEqual (SHA3Sum256 sha3 code) c.codeHash = false) :
    c.SetCode sha3 code =
      { err := none,
        self := { c with code := code, codeHash := SHA3Sum256 sha3 code, isNew := true },
        dirty := [c.markDirty] } := by
  simp [contractImpl.SetCode, if_neg h, hs]

/-- C1: `SetCode(code)` returns no error; empty code clears code and codeHash
and calls the dirty hook once; non-empty code whose SHA3-256 equals the current
codeHash changes nothing and calls no hook; otherwise codeHash becomes the
digest, the code the given bytes, isNew is set and the hook is called once.  In
every case state, contentType, eeType, both tx hashes and params are kept. -/
theorem SetCode_spec (sha3 : List Nat → List Nat) (c : contractImpl) (code : Bytes) :
    (c.SetCode sha3 code).err = none ∧
    (len code = 0 →
      len (c.SetCode sha3 code).self.code = 0 ∧ len (c.SetCode sha3 code).self.codeHash = 0 ∧
      (c.SetCode sha3 code).dirty = [c.markDirty]) ∧
    (len code ≠ 0 → bytesEqual (SHA3Sum256 sha3 code) c.codeHash = true →
      (c.SetCode sha3 code).self = c ∧ (c.SetCode sha3 code).dirty = []) ∧
    (len code ≠ 0 → bytesEqual (SHA3Sum256 sha3 code) c.codeHash = false →
      (c.SetCode sha3 code).self.codeHash = SHA3Sum256 sha3 code ∧
      (c.SetCode sha3 code).self.code = code ∧
      (c.SetCode sha3 code).self.isNew = true ∧
      (c.SetCode sha3 code).dirty = [c.markDirty]) ∧
    ((c.SetCode sha3 code).self.state = c.state ∧
      (c.SetCode sha3 code).self.contentType = c.contentType ∧
      (c.SetCode sha3 code).self.eeType = c.eeType ∧
      (c.SetCode sha3 code).self.deployTxHash = c.deployTxHash ∧
      (c.SetCode sha3 code).self.auditTxHash = c.auditTxHash ∧
      (c.SetCode sha3 code).self.params = c.params) := by
  by_cases h0 : len code = 0
  · rw [SetCode_of_empty sha3 c code h0]
    exact ⟨rfl, fun _ => ⟨rfl, rfl, rfl⟩, fun h => absurd h0 h, fun h => absurd h0 h,
      rfl, rfl, rfl, rfl, rfl, rfl⟩
  · by_cases h1 : bytesEqual (SHA3Sum256 sha3 code) c.codeHash = true
    · rw [SetCode_of_same sha3 c code h0 h1]
      refine ⟨rfl, fun h => absurd h h0, fun _ _ => ⟨rfl, rfl⟩, fun _ h => ?_,
        rfl, rfl, rfl, rfl, rfl, rfl⟩
      rw [h1] at h
      exact absurd h (by decide)
    · have h2 : bytesEqual (SHA3Sum256 sha3 code) c.codeHash = false := by simpa using h1
      rw [SetCode_of_fresh sha3 c code h0 h2]
      exact ⟨rfl, fun h => absurd h h0, fun _ h => absurd h h1, fun _ _ => ⟨rfl, rfl, rfl, rfl⟩,
        rfl, rfl, rfl, rfl, rfl, rfl⟩

/-- C2: for two non-nil snapshots `a` and `b`, `a.Equal(b)` returns a boolean,
which is true exactly when the states are equal and deployTxHash, auditTxHash
and codeHash are equal as byte strings; snapshots that agree with `a` and `b`
on these four fields (whatever their code, isNew and bucket) give the same
result. -/
theorem Equal_iff (h : Heap) (pa pb : Nat) (a b : contractSnapshotImpl)
    (ha : h.snapshotAt pa = some a) (hb : h.snapshotAt pb = some b) :
    (contractSnapshotImpl.Equal h (some pa) (ContractSnapshot.impl (some pb)) = Outcome.ret true ↔
      a.state = b.state ∧ content a.deployTxHash = content b.deployTxHash ∧
      content a.auditTxHash = content b.auditTxHash ∧
      content a.codeHash = content b.codeHash) ∧
    (contractSnapshotImpl.Equal h (some pa) (ContractSnapshot.impl (some pb)) = Outcome.ret true ∨
      contractSnapshotImpl.Equal h (some pa) (ContractSnapshot.impl (some pb)) =
        Outcome.ret false) ∧
    (∀ (g : Heap) (qa qb : Nat) (x y : contractSnapshotImpl),
      g.snapshotAt qa = some x → g.snapshotAt qb = some y →
      x.state = a.state → x.deployTxHash = a.deployTxHash → x.auditTxHash = a.auditTxHash →
      x.codeHash = a.codeHash →
      y.state = b.state → y.deployTxHash = b.deployTxHash → y.auditTxHash = b.auditTxHash →
      y.codeHash = b.codeHash →
      contractSnapshotImpl.Equal g (some qa) (ContractSnapshot.impl (some qb)) =
        contractSnapshotImpl.Equal h (some pa) (ContractSnapshot.impl (some pb))) := by
  have key : ∀ (g : Heap) (qa qb : Nat) (x y : contractSnapshotImpl),
      g.snapshotAt qa = some x → g.snapshotAt qb = some y →
      contractSnapshotImpl.Equal g (some qa) (ContractSnapshot.impl (some qb)) =
        Outcome.ret (decide (x.state = y.state) &&
            bytesEqual x.deployTxHash y.deployTxHash &&
            bytesEqual x.auditTxHash y.auditTxHash &&
            bytesEqual x.codeHash y.codeHash) := by
    intro g qa qb x y hx hy
    by_cases hq : qa = qb
    · subst hq
      have hxy : x = y := by
        rw [hx] at hy
        exact Option.some.inj hy
      subst hxy
      simp [contractSnapshotImpl.Equal, bytesEqual]
    · have hq2 : ¬ (some qa = some qb) := fun e => hq (Option.some.inj e)
      simp only [contractSnapshotImpl.Equal, if_neg hq2, hx, hy]
  refine ⟨?_, ?_, ?_⟩
  · rw [key h pa pb a b ha hb]
    simp [bytesEqual, and_assoc]
  · rw [key h pa pb a b ha hb]
    cases (decide (a.state = b.state) && bytesEqual a.deployTxHash b.deployTxHash &&
      bytesEqual a.auditTxHash b.auditTxHash && bytesEqual a.codeHash b.codeHash)
    · exact Or.inr rfl
    · exact Or.inl rfl
  · intro g qa qb x y hx hy h1 h2 h3 h4 h5 h6 h7 h8
    rw [key g qa qb x y hx hy, key h pa pb a b ha hb, h1, h2, h3, h4, h5, h6, h7, h8]

/-- C2 at a concrete memory: a snapshot without resident code and one with its
code loaded, equal in state, tx hashes and codeHash, are `Equal`. -/
theorem Equal_iff_witness :
    contractSnapshotImpl.Equal sampleHeap (some 0) (ContractSnapshot.impl (some 1)) =
      Outcome.ret true :=
  ((Equal_iff sampleHeap 0 1 sampleSnapshot sampleLoaded rfl rfl).1).2 (by decide)

/-- A byte string with non-empty content `l` is the non-nil slice `some l`. -/
theorem eq_some_of_content (x : Bytes) (l : List Nat) (h : content x = l) (hl : l ≠ []) :
    x = some l := by
  cases x with
  | none => exact absurd h.symm hl
  | some y => exact congrArg some h

/-- In `mapBucket`, `Get` after `Set` returns the value set. -/
theorem mapBucket_Get_Set (st : List (List Nat × List Nat)) (k v : Bytes)
    (st' : List (List Nat × List Nat))
    (h : mapBucket.Set st k v = Except.ok st') :
    ∃ v', mapBucket.Get st' k = Except.ok v' ∧ content v' = content v := by
  simp only [mapBucket, Except.ok.injEq] at h
  subst h
  exact ⟨some (content v), by simp [mapBucket, List.lookup], rfl⟩

/-- C3 as stated fails: over a map bucket (Get after Set returns the value set),
on a view whose codeHash already is the digest of `b = [1, 2, 3]`, `SetCode(b)`
changes nothing, the flush of its snapshot succeeds without writing, and
`Code()` of that snapshot (same bucket, codeHash the digest of `b`, code not
resident) ends in a NotFound error. -/
theorem roundtrip_counterexample :
    (∀ (st : List (List Nat × List Nat)) (k v : Bytes) (st' : List (List Nat × List Nat)),
      mapBucket.Set st k v = Except.ok st' →
      ∃ v', mapBucket.Get st' k = Except.ok v' ∧ content v' = content v) ∧
    len (some [1, 2, 3]) ≠ 0 ∧
    (staleContract.SetCode toySHA3 (some [1, 2, 3])).err = none ∧
    contractImpl.getSnapshot (some (staleContract.SetCode toySHA3 (some [1, 2, 3])).self) =
      some staleContract.tocontractSnapshotImpl ∧
    (staleContract.tocontractSnapshotImpl.flush mapBucket emptyDB).err = none ∧
    staleContract.tocontractSnapshotImpl.codeHash = SHA3Sum256 toySHA3 (some [1, 2, 3]) ∧
    len staleContract.tocontractSnapshotImpl.code = 0 ∧
    (staleContract.tocontractSnapshotImpl.Code mapBucket
      (staleContract.tocontractSnapshotImpl.flush mapBucket emptyDB).db).err =
        some Error.NotFoundError ∧
    (staleContract.tocontractSnapshotImpl.Code mapBucket
      (staleContract.tocontractSnapshotImpl.flush mapBucket emptyDB).db).ret = none := by
  refine ⟨mapBucket_Get_Set, by decide, by decide, by decide, by decide, by decide, by decide,
    by decide, by decide⟩

/-- C3, amended: when `SetCode(b)` replaces the code (b non-empty, the view's
codeHash is not already the digest of b) and the flush of the view's snapshot
succeeds, over a bucket in which Get after Set returns the value set, every
snapshot over the same bucket whose codeHash is the digest of b and whose code
is not resident returns bytes equal to b from `Code()`, with no error. -/
theorem roundtrip {σ : Type} (sha3 : List Nat → List Nat) (B : Bucket σ) (db : Nat → σ)
    (c : contractImpl) (b : Bytes) (snap s : contractSnapshotImpl)
    (hlaw : ∀ (st : σ) (k v : Bytes) (st' : σ), B.Set st k v = Except.ok st' →
      ∃ v', B.Get st' k = Except.ok v' ∧ content v' = content v)
    (hdigest : ∀ m, (sha3 m).length = 32)
    (hb : len b ≠ 0)
    (hnew : bytesEqual (SHA3Sum256 sha3 b) c.codeHash = false)
    (hsnap : contractImpl.getSnapshot (some (c.SetCode sha3 b).self) = some snap)
    (hflush : (snap.flush B db).err = none)
    (hbk : s.bk = c.bk) (hhash : content s.codeHash = sha3 (content b))
    (hres : len s.code = 0) :
    content (s.Code B (snap.flush B db).db).ret = content b ∧
    (s.Code B (snap.flush B db).db).err = none := by
  have hne : sha3 (content b) ≠ [] := by
    intro h0
    have := hdigest (content b)
    rw [h0] at this
    exact absurd this (by decide)
  have hkey : s.codeHash = some (sha3 (content b)) := eq_some_of_content _ _ hhash hne
  have hklen : len s.codeHash ≠ 0 := by
    rw [hkey]
    simp [len, content, hdigest]
  rw [SetCode_of_fresh sha3 c b hb hnew] at hsnap
  simp only [contractImpl.getSnapshot, Option.some.injEq] at hsnap
  subst hsnap
  cases hset : B.Set (db c.bk) (SHA3Sum256 sha3 b) b with
  | error e =>
    simp [contractSnapshotImpl.flush, hset] at hflush
  | ok st' =>
    obtain ⟨v', hget, hv'⟩ := hlaw _ _ _ _ hset
    have hvlen : len v' ≠ 0 := by
      unfold len at hb ⊢
      rw [hv']
      exact hb
    have hdb : (contractSnapshotImpl.flush B db
        { bk := c.bk, isNew := true, state := c.state, contentType := c.contentType,
          eeType := c.eeType, deployTxHash := c.deployTxHash, auditTxHash := c.auditTxHash,
          codeHash := SHA3Sum256 sha3 b, code := b, params := c.params }).db s.bk = st' := by
      simp [contractSnapshotImpl.flush, hset, hbk]
    have hget2 : B.Get st' s.codeHash = Except.ok v' := by
      rw [hkey]
      exact hget
    simp only [contractSnapshotImpl.Code, if_pos hres, if_neg hklen, hdb, hget2, if_neg hvlen]
    exact ⟨hv', trivial⟩

/-- C3, amended, at a concrete input: a view without code, `b = [1, 2, 3]`, an
empty map bucket. -/
theorem roundtrip_witness :
    content ((unloadedSnapshot.Code mapBucket
      ((sampleContract.SetCode toySHA3 (some [1, 2, 3])).self.tocontractSnapshotImpl.flush
        mapBucket emptyDB).db).ret) = content (some [1, 2, 3]) ∧
    (unloadedSnapshot.Code mapBucket
      ((sampleContract.SetCode toySHA3 (some [1, 2, 3])).self.tocontractSnapshotImpl.flush
        mapBucket emptyDB).db).err = none :=
  roundtrip toySHA3 mapBucket emptyDB sampleContract (some [1, 2, 3])
    (sampleContract.SetCode toySHA3 (some [1, 2, 3])).self.tocontractSnapshotImpl
    unloadedSnapshot
    mapBucket_Get_Set (fun m => by simp [toySHA3]) (by decide) (by decide) rfl (by decide)
    rfl (by decide) (by decide)

/-- The branches of `Code()`. -/
theorem Code_body {σ : Type} (B : Bucket σ) (db : Nat → σ) (c : contractSnapshotImpl) :
    (len c.code ≠ 0 →
      c.Code B db = { ret := c.code, err := none, self := c, reads := [] }) ∧
    (len c.code = 0 → len c.codeHash = 0 →
      c.Code B db = { ret := none, err := none, self := c, reads := [] }) ∧
    (len c.code = 0 → len c.codeHash ≠ 0 →
      (∀ e, B.Get (db c.bk) c.codeHash = Except.error e →
        c.Code B db =
          { ret := none, err := some e, self := c, reads := [(c.bk, c.codeHash)] }) ∧
      (∀ v, B.Get (db c.bk) c.codeHash = Except.ok v → len v = 0 →
        c.Code B db =
          { ret := none, err := some Error.NotFoundError, self := c,
            reads := [(c.bk, c.codeHash)] }) ∧
      (∀ v, B.Get (db c.bk) c.codeHash = Except.ok v → len v ≠ 0 →
        c.Code B db =
          { ret := v, err := none, self := { c with code := v },
            reads := [(c.bk, c.codeHash)] })) := by
  refine ⟨fun h => ?_, fun h1 h2 => ?_, fun h1 h2 => ⟨fun e he => ?_, fun v hv h0 => ?_,
    fun v hv h0 => ?_⟩⟩
  · simp only [contractSnapshotImpl.Code, if_neg h]
  · simp only [contractSnapshotImpl.Code, if_pos h1, if_pos h2]
  · simp only [contractSnapshotImpl.Code, if_pos h1, if_neg h2, he]
  · simp only [contractSnapshotImpl.Code, if_pos h1, if_neg h2, hv, if_pos h0]
  · simp only [contractSnapshotImpl.Code, if_pos h1, if_neg h2, hv, if_neg h0]

/-- C4: `Code()` returns resident code without a storage read; returns nothing
and no error when code and codeHash are both empty; otherwise reads the bucket
at key codeHash once, passes a read error on, gives NotFound (snapshot left
unpopulated) for absent or zero-length bytes, and else returns the stored bytes
and keeps them, so that a second `Code()` returns the same bytes with no read,
whatever the storage then does. -/
theorem Code_spec {σ : Type} (B : Bucket σ) (db : Nat → σ) (c : contractSnapshotImpl) :
    (len c.code ≠ 0 →
      c.Code B db = { ret := c.code, err := none, self := c, reads := [] }) ∧
    (len c.code = 0 → len c.codeHash = 0 →
      c.Code B db = { ret := none, err := none, self := c, reads := [] }) ∧
    (len c.code = 0 → len c.codeHash ≠ 0 →
      (∀ e, B.Get (db c.bk) c.codeHash = Except.error e →
        c.Code B db =
          { ret := none, err := some e, self := c, reads := [(c.bk, c.codeHash)] }) ∧
      (∀ v, B.Get (db c.bk) c.codeHash = Except.ok v → len v = 0 →
        c.Code B db =
          { ret := none, err := some Error.NotFoundError, self := c,
            reads := [(c.bk, c.codeHash)] }) ∧
      (∀ v, B.Get (db c.bk) c.codeHash = Except.ok v → len v ≠ 0 →
        c.Code B db =
          { ret := v, err := none, self := { c with code := v },
            reads := [(c.bk, c.codeHash)] } ∧
        ∀ (B2 : Bucket σ) (db2 : Nat → σ),
          (c.Code B db).self.Code B2 db2 =
            { ret := v, err := none, self := (c.Code B db).self, reads := [] })) := by
  refine ⟨(Code_body B db c).1, (Code_body B db c).2.1, fun h1 h2 =>
    ⟨((Code_body B db c).2.2 h1 h2).1, ((Code_body B db c).2.2 h1 h2).2.1, fun v hv h0 => ?_⟩⟩
  have hfirst := ((Code_body B db c).2.2 h1 h2).2.2 v hv h0
  refine ⟨hfirst, fun B2 db2 => ?_⟩
  rw [hfirst]
  simp only [contractSnapshotImpl.Code, if_neg h0]

/-- C4 at a concrete input: the bucket holds `[1, 2, 3]` under the snapshot's
codeHash; the first `Code()` reads it, the second (over empty storage) does not. -/
theorem Code_spec_witness :
    unloadedSnapshot.Code mapBucket storedDB =
      { ret := some [1, 2, 3], err := none,
        self := { unloadedSnapshot with code := some [1, 2, 3] },
        reads := [(0, some (toySHA3 [1, 2, 3]))] } ∧
    (unloadedSnapshot.Code mapBucket storedDB).self.Code mapBucket emptyDB =
      { ret := some [1, 2, 3], err := none,
        self := (unloadedSnapshot.Code mapBucket storedDB).self, reads := [] } :=
  ⟨(((Code_spec mapBucket storedDB unloadedSnapshot).2.2 (by decide) (by decide)).2.2
      (some [1, 2, 3]) rfl (by decide)).1,
   (((Code_spec mapBucket storedDB unloadedSnapshot).2.2 (by decide) (by decide)).2.2
      (some [1, 2, 3]) rfl (by decide)).2 mapBucket emptyDB⟩

/-- `SetCode` writes only codeHash, code and isNew, and keeps the hook. -/
theorem SetCode_frame (sha3 : List Nat → List Nat) (c : contractImpl) (code : Bytes) :
    sameFrame (c.SetCode sha3 code).self.tocontractSnapshotImpl c.tocontractSnapshotImpl ∧
    (c.SetCode sha3 code).self.markDirty = c.markDirty := by
  by_cases h0 : len code = 0
  · rw [SetCode_of_empty sha3 c code h0]
    exact ⟨⟨rfl, rfl, rfl, rfl, rfl, rfl, rfl⟩, rfl⟩
  · by_cases h1 : bytesEqual (SHA3Sum256 sha3 code) c.codeHash = true
    · rw [SetCode_of_same sha3 c code h0 h1]
      exact ⟨⟨rfl, rfl, rfl, rfl, rfl, rfl, rfl⟩, rfl⟩
    · rw [SetCode_of_fresh sha3 c code h0 (by simpa using h1)]
      exact ⟨⟨rfl, rfl, rfl, rfl, rfl, rfl, rfl⟩, rfl⟩

/-- `sameFrame` is transitive. -/
theorem sameFrame_trans {a b c : contractSnapshotImpl} (h1 : sameFrame a b)
    (h2 : sameFrame b c) : sameFrame a c := by
  obtain ⟨a1, a2, a3, a4, a5, a6, a7⟩ := h1
  obtain ⟨b1, b2, b3, b4, b5, b6, b7⟩ := h2
  exact ⟨a1.trans b1, a2.trans b2, a3.trans b3, a4.trans b4, a5.trans b5, a6.trans b6,
    a7.trans b7⟩

/-- A view found at `p` occupies a cell of the heap. -/
theorem Heap.cells_of_contractAt (h : Heap) (p : Nat) (c : contractImpl)
    (hc : h.contractAt p = some c) : h.cells[p]? = some (Obj.contract c) := by
  unfold Heap.contractAt at hc
  cases hcell : h.cells[p]? with
  | none => simp [hcell] at hc
  | some o =>
    cases o with
    | snapshot s => simp [hcell] at hc
    | contract d =>
      simp [hcell] at hc
      rw [hc]

/-- `SetCode` through a pointer leaves every other object alone. -/
theorem Heap.SetCode_cells_ne (sha3 : List Nat → List Nat) (h : Heap) (p q : Nat)
    (code : Bytes) (hq : q ≠ p) : (Heap.SetCode sha3 h p code).cells[q]? = h.cells[q]? := by
  unfold Heap.SetCode
  cases h.contractAt p with
  | none => rfl
  | some c => exact List.getElem?_set_ne (Ne.symm hq)

/-- `SetCode` through a pointer allocates nothing. -/
theorem Heap.SetCode_length (sha3 : List Nat → List Nat) (h : Heap) (p : Nat) (code : Bytes) :
    (Heap.SetCode sha3 h p code).cells.length = h.cells.length := by
  unfold Heap.SetCode
  cases h.contractAt p with
  | none => rfl
  | some c => exact List.length_set _ _ _

/-- `SetCode` through a pointer stores the receiver after the call. -/
theorem Heap.SetCode_contractAt (sha3 : List Nat → List Nat) (h : Heap) (p : Nat)
    (code : Bytes) (c : contractImpl) (hc : h.contractAt p = some c) :
    (Heap.SetCode sha3 h p code).contractAt p = some (c.SetCode sha3 code).self := by
  have hcell := Heap.cells_of_contractAt h p c hc
  have hlt : p < h.cells.length := by
    obtain ⟨hlt, _⟩ := List.getElem?_eq_some.mp hcell
    exact hlt
  unfold Heap.SetCode
  rw [hc]
  unfold Heap.contractAt
  simp only [List.getElem?_set_self hlt]

/-- A sequence of `SetCode` calls on the view at `p`: the view stays a view with
the same frame, no other object changes, nothing is allocated. -/
theorem Heap.SetCodes_spec (sha3 : List Nat → List Nat) (codes : List Bytes) :
    ∀ (h : Heap) (p : Nat) (c : contractImpl), h.contractAt p = some c →
      (∃ d, (Heap.SetCodes sha3 h p codes).contractAt p = some d ∧
        sameFrame d.tocontractSnapshotImpl c.tocontractSnapshotImpl) ∧
      (∀ q, q ≠ p → (Heap.SetCodes sha3 h p codes).cells[q]? = h.cells[q]?) ∧
      (Heap.SetCodes sha3 h p codes).cells.length = h.cells.length := by
  induction codes with
  | nil =>
    intro h p c hc
    exact ⟨⟨c, hc, ⟨rfl, rfl, rfl, rfl, rfl, rfl, rfl⟩⟩, fun _ _ => rfl, rfl⟩
  | cons code rest ih =>
    intro h p c hc
    have hstep := Heap.SetCode_contractAt sha3 h p code c hc
    obtain ⟨⟨d, hd, hfd⟩, hne, hlen⟩ := ih (Heap.SetCode sha3 h p code) p _ hstep
    refine ⟨⟨d, hd, sameFrame_trans hfd (SetCode_frame sha3 c code).1⟩, fun q hq => ?_, ?_⟩
    · exact (hne q hq).trans (Heap.SetCode_cells_ne sha3 h p q code hq)
    · exact hlen.trans (Heap.SetCode_length sha3 h p code)

/-- What a snapshot pointer sees depends only on the cell it points to. -/
theorem Heap.snapshotAt_congr (g h : Heap) (p q : Nat) (hcell : g.cells[p]? = h.cells[q]?) :
    g.snapshotAt p = h.snapshotAt q := by
  unfold Heap.snapshotAt
  rw [hcell]

/-- C5: let `c = newContractState(S, hook)` for a snapshot `S` in memory.  After
any sequence of `SetCode` calls on `c`, `S` is what it was; a snapshot `F` taken
from `c` then agrees with `S` in every field but codeHash, code and isNew; and
after any further sequence of `SetCode` calls on `c`, both `F` and `S` are
still what they were. -/
theorem snapshot_immutable (sha3 : List Nat → List Nat) (h : Heap) (pS : Nat)
    (S : contractSnapshotImpl) (hook : Nat) (codes codes2 : List Bytes)
    (hS : h.snapshotAt pS = some S) :
    ∃ pc pF F,
      (h.newContractState (some pS) hook).2 = some pc ∧
      (Heap.SetCodes sha3 (h.newContractState (some pS) hook).1 pc codes).snapshotAt pS =
        some S ∧
      (Heap.getSnapshot (Heap.SetCodes sha3 (h.newContractState (some pS) hook).1 pc codes)
        (some pc)).2 = some pF ∧
      (Heap.getSnapshot (Heap.SetCodes sha3 (h.newContractState (some pS) hook).1 pc codes)
        (some pc)).1.snapshotAt pF = some F ∧
      sameFrame F S ∧
      (Heap.SetCodes sha3 (Heap.getSnapshot (Heap.SetCodes sha3
        (h.newContractState (some pS) hook).1 pc codes) (some pc)).1 pc codes2).snapshotAt pF =
          some F ∧
      (Heap.SetCodes sha3 (Heap.getSnapshot (Heap.SetCodes sha3
        (h.newContractState (some pS) hook).1 pc codes) (some pc)).1 pc codes2).snapshotAt pS =
          some S := by
  have hlt : pS < h.cells.length := by
    unfold Heap.snapshotAt at hS
    cases hcell : h.cells[pS]? with
    | none => simp [hcell] at hS
    | some o =>
      obtain ⟨hlt, _⟩ := List.getElem?_eq_some.mp hcell
      exact hlt
  have hne : pS ≠ h.cells.length := Nat.ne_of_lt hlt
  -- the new view
  let c0 : contractImpl := { tocontractSnapshotImpl := S, markDirty := hook }
  have hnew : h.newContractState (some pS) hook =
      ({ cells := h.cells ++ [Obj.contract c0] }, some h.cells.length) := by
    simp only [Heap.newContractState, hS, Goloop.newContractState, contractImpl.reset,
      Heap.alloc, c0]
  rw [hnew]
  have hc0 : Heap.contractAt { cells := h.cells ++ [Obj.contract c0] } h.cells.length =
      some c0 := by
    simp only [Heap.contractAt, List.getElem?_concat_length]
  have hS1 : Heap.snapshotAt { cells := h.cells ++ [Obj.contract c0] } pS = some S := by
    rw [← hS]
    exact Heap.snapshotAt_congr _ _ _ _ (List.getElem?_append_left hlt)
  -- the first run of SetCode calls
  obtain ⟨⟨d, hd, hfd⟩, hne2, hlen2⟩ :=
    Heap.SetCodes_spec sha3 codes { cells := h.cells ++ [Obj.contract c0] } h.cells.length c0 hc0
  have hlen2b : (Heap.SetCodes sha3 { cells := h.cells ++ [Obj.contract c0] } h.cells.length
      codes).cells.length = h.cells.length + 1 := by
    rw [hlen2]
    simp
  have hS2 : (Heap.SetCodes sha3 { cells := h.cells ++ [Obj.contract c0] } h.cells.length
      codes).snapshotAt pS = some S := by
    rw [← hS1]
    exact Heap.snapshotAt_congr _ _ _ _ (hne2 pS hne)
  -- the fresh snapshot
  have hget : Heap.getSnapshot (Heap.SetCodes sha3 { cells := h.cells ++ [Obj.contract c0] }
      h.cells.length codes) (some h.cells.length) =
      ({ cells := (Heap.SetCodes sha3 { cells := h.cells ++ [Obj.contract c0] } h.cells.length
          codes).cells ++ [Obj.snapshot d.tocontractSnapshotImpl] },
        some (h.cells.length + 1)) := by
    simp only [Heap.getSnapshot, hd, contractImpl.getSnapshot, Heap.alloc, hlen2b]
  have hF3 : Heap.snapshotAt { cells := (Heap.SetCodes sha3
      { cells := h.cells ++ [Obj.contract c0] } h.cells.length codes).cells ++
        [Obj.snapshot d.tocontractSnapshotImpl] } (h.cells.length + 1) =
      some d.tocontractSnapshotImpl := by
    unfold Heap.snapshotAt
    rw [← hlen2b]
    simp only [List.getElem?_concat_length]
  have hS3 : Heap.snapshotAt { cells := (Heap.SetCodes sha3
      { cells := h.cells ++ [Obj.contract c0] } h.cells.length codes).cells ++
        [Obj.snapshot d.tocontractSnapshotImpl] } pS = some S := by
    rw [← hS2]
    exact Heap.snapshotAt_congr _ _ _ _
      (List.getElem?_append_left (by rw [hlen2b]; exact Nat.lt_succ_of_lt hlt))
  have hd3 : Heap.contractAt { cells := (Heap.SetCodes sha3
      { cells := h.cells ++ [Obj.contract c0] } h.cells.length codes).cells ++
        [Obj.snapshot d.tocontractSnapshotImpl] } h.cells.length = some d := by
    have hcell := Heap.cells_of_contractAt _ _ _ hd
    unfold Heap.contractAt
    rw [List.getElem?_append_left (by rw [hlen2b]; exact Nat.lt_succ_self _), hcell]
  -- the second run of SetCode calls
  obtain ⟨_, hne4, _⟩ := Heap.SetCodes_spec sha3 codes2 _ h.cells.length d hd3
  refine ⟨h.cells.length, h.cells.length + 1, d.tocontractSnapshotImpl, rfl, hS2, ?_, ?_,
    hfd, ?_, ?_⟩
  · dsimp only
    rw [hget]
  · dsimp only
    rw [hget]
    exact hF3
  · dsimp only
    rw [hget, ← hF3]
    exact Heap.snapshotAt_congr _ _ _ _ (hne4 _ (Nat.succ_ne_self _))
  · dsimp only
    rw [hget, ← hS3]
    exact Heap.snapshotAt_congr _ _ _ _ (hne4 pS hne)

/-- C5 at a concrete memory: a view over `sampleSnapshot` (address 0), two
`SetCode` calls, a fresh snapshot, one more `SetCode` call. -/
theorem snapshot_immutable_witness :
    sampleHeap.snapshotAt 0 = some sampleSnapshot ∧
    ∃ pc pF F,
      (sampleHeap.newContractState (some 0) 7).2 = some pc ∧
      (Heap.SetCodes toySHA3 (sampleHeap.newContractState (some 0) 7).1 pc
        [some [5], none]).snapshotAt 0 = some sampleSnapshot ∧
      (Heap.getSnapshot (Heap.SetCodes toySHA3 (sampleHeap.newContractState (some 0) 7).1 pc
        [some [5], none]) (some pc)).2 = some pF ∧
      (Heap.getSnapshot (Heap.SetCodes toySHA3 (sampleHeap.newContractState (some 0) 7).1 pc
        [some [5], none]) (some pc)).1.snapshotAt pF = some F ∧
      sameFrame F sampleSnapshot ∧
      (Heap.SetCodes toySHA3 (Heap.getSnapshot (Heap.SetCodes toySHA3
        (sampleHeap.newContractState (some 0) 7).1 pc [some [5], none]) (some pc)).1 pc
          [some [6]]).snapshotAt pF = some F ∧
      (Heap.SetCodes toySHA3 (Heap.getSnapshot (Heap.SetCodes toySHA3
        (sampleHeap.newContractState (some 0) 7).1 pc [some [5], none]) (some pc)).1 pc
          [some [6]]).snapshotAt 0 = some sampleSnapshot :=
  ⟨rfl, snapshot_immutable toySHA3 sampleHeap 0 sampleSnapshot 7 [some [5], none] [some [6]] rfl⟩

/-- C6 as stated fails for `OnData`: a snapshot that satisfies the invariant
(codeHash the digest of `[1, 2, 3]`, no resident code) accepts the bytes `[4]`
without error and then holds code that does not hash to its codeHash. -/
theorem codeInv_OnData_counterexample :
    codeInv toySHA3 unloadedSnapshot ∧
    (unloadedSnapshot.OnData (some [4])).2 = none ∧
    ¬ codeInv toySHA3 (unloadedSnapshot.OnData (some [4])).1 := by
  refine ⟨by decide, by decide, by decide⟩

/-- The bucket state of `storedDB` keeps its only value under its digest. -/
theorem storedDB_keyed (n : Nat) : keyedByHash toySHA3 mapBucket (storedDB n) := by
  intro k v hget hlen
  simp only [mapBucket, storedDB, List.lookup] at hget
  by_cases hk : content k = toySHA3 [1, 2, 3]
  · have hb : (content k == toySHA3 [1, 2, 3]) = true := by simpa using hk
    simp only [hb, Except.ok.injEq] at hget
    subst hget
    exact hk
  · have hb : (content k == toySHA3 [1, 2, 3]) = false := by simpa using hk
    simp only [hb, Except.ok.injEq] at hget
    subst hget
    exact absurd rfl hlen

/-- C6, amended: a view (and its embedded snapshot) that satisfies the invariant
still satisfies it after `SetCode` with any code, after `Code()` and `Resolve`
over a bucket whose values are keyed by their digests, after `OnData` when the
delivered bytes are empty or hash to codeHash, after `reset` from a snapshot
that satisfies it, and in the copy made by `getSnapshot`. -/
theorem codeInv_preserved {σ : Type} (sha3 : List Nat → List Nat) (B : Bucket σ)
    (db : Nat → σ) (c : contractImpl) (snapshot : contractSnapshotImpl) (code bs : Bytes)
    (hinv : codeInv sha3 c.tocontractSnapshotImpl)
    (hkeyed : keyedByHash sha3 B (db c.bk)) :
    codeInv sha3 (c.SetCode sha3 code).self.tocontractSnapshotImpl ∧
    codeInv sha3 (c.tocontractSnapshotImpl.Code B db).self ∧
    codeInv sha3 (c.tocontractSnapshotImpl.Resolve B db).self ∧
    ((len bs = 0 ∨ content c.codeHash = sha3 (content bs)) →
      codeInv sha3 (c.tocontractSnapshotImpl.OnData bs).1) ∧
    (codeInv sha3 snapshot → codeInv sha3 (c.reset snapshot).tocontractSnapshotImpl) ∧
    (∀ s, contractImpl.getSnapshot (some c) = some s → codeInv sha3 s) := by
  refine ⟨?_, ?_, ?_, ?_, ?_, ?_⟩
  · by_cases h0 : len code = 0
    · rw [SetCode_of_empty sha3 c code h0]
      intro h
      exact absurd rfl h
    · by_cases h1 : bytesEqual (SHA3Sum256 sha3 code) c.codeHash = true
      · rw [SetCode_of_same sha3 c code h0 h1]
        exact hinv
      · rw [SetCode_of_fresh sha3 c code h0 (by simpa using h1)]
        intro _
        rfl
  · by_cases h0 : len c.code = 0
    · by_cases h1 : len c.codeHash = 0
      · rw [((Code_body B db c.tocontractSnapshotImpl).2.1 h0 h1)]
        exact hinv
      · cases hget : B.Get (db c.bk) c.codeHash with
        | error e =>
          rw [((Code_body B db c.tocontractSnapshotImpl).2.2 h0 h1).1 e hget]
          exact hinv
        | ok v =>
          by_cases hv : len v = 0
          · rw [((Code_body B db c.tocontractSnapshotImpl).2.2 h0 h1).2.1 v hget hv]
            exact hinv
          · rw [(((Code_body B db c.tocontractSnapshotImpl).2.2 h0 h1).2.2 v hget hv)]
            intro _
            exact hkeyed _ _ hget hv
    · rw [(Code_body B db c.tocontractSnapshotImpl).1 h0]
      exact hinv
  · unfold contractSnapshotImpl.Resolve
    cases hget : B.Get (db c.bk) c.codeHash with
    | error e => exact hinv
    | ok v =>
      cases v with
      | none => exact hinv
      | some l =>
        intro hl
        exact hkeyed _ _ hget hl
  · intro hbs hl
    cases hbs with
    | inl h0 => exact absurd h0 hl
    | inr h1 => exact h1
  · intro hs
    exact hs
  · intro s hs
    simp only [contractImpl.getSnapshot, Option.some.injEq] at hs
    subst hs
    exact hinv

/-- C6, amended, at a concrete input: the view `staleContract` over a bucket that
holds `[1, 2, 3]` under its digest. -/
theorem codeInv_preserved_witness :
    codeInv toySHA3 (staleContract.SetCode toySHA3 (some [7])).self.tocontractSnapshotImpl ∧
    codeInv toySHA3 (staleContract.tocontractSnapshotImpl.Code mapBucket storedDB).self ∧
    codeInv toySHA3 (staleContract.tocontractSnapshotImpl.Resolve mapBucket storedDB).self ∧
    ((len (some [1, 2, 3]) = 0 ∨
        content staleContract.codeHash = toySHA3 (content (some [1, 2, 3]))) →
      codeInv toySHA3 (staleContract.tocontractSnapshotImpl.OnData (some [1, 2, 3])).1) ∧
    (codeInv toySHA3 sampleLoaded →
      codeInv toySHA3 (staleContract.reset sampleLoaded).tocontractSnapshotImpl) ∧
    (∀ s, contractImpl.getSnapshot (some staleContract) = some s → codeInv toySHA3 s) :=
  codeInv_preserved toySHA3 mapBucket storedDB staleContract sampleLoaded (some [7])
    (some [1, 2, 3]) (by decide) (storedDB_keyed 0)

/-- The guard of `checkTransitionResult`: a parent that is another
implementation, or a non-nil `*transition` in another step than `stepComplete`,
is refused. -/
theorem checkTransitionResult_refuses (stepComplete : Int) (parent : Transition)
    (hnil : parent ≠ Transition.nil) (hptr : parent ≠ Transition.nilPtr)
    (hnot : ∀ t, parent = Transition.ptr t → t.step ≠ stepComplete) :
    manager.checkTransitionResult stepComplete parent =
      Outcome.ret (none, some Error.ErrIllegalArgument) := by
  cases parent with
  | nil => exact absurd rfl hnil
  | ptr t => simp only [manager.checkTransitionResult, if_pos (hnot t rfl)]
  | other tag => rfl
  | nilPtr => exact absurd rfl hptr

/-- C7 as stated fails: a nil `*transition` held in an interface is a non-nil
parent that is not a transition whose step is Complete, and for it
`ProposeTransition` and `CreateTransition` do not return the illegal-argument
error: the check panics when it reads the step. -/
theorem parent_guard_counterexample :
    Transition.nilPtr ≠ Transition.nil ∧
    (∀ t : transition, Transition.nilPtr ≠ Transition.ptr t) ∧
    (manager.ProposeTransition sampleCollaborators sampleManager Transition.nilPtr
      { height := 6, timestamp := 200 }).out = Outcome.panic "nil pointer dereference" ∧
    (manager.ProposeTransition sampleCollaborators sampleManager Transition.nilPtr
      { height := 6, timestamp := 200 }).out ≠
        Outcome.ret (Transition.nil, some Error.ErrIllegalArgument) ∧
    (manager.CreateTransition sampleCollaborators sampleManager Transition.nilPtr []
      { height := 6, timestamp := 200 }).out = Outcome.panic "nil pointer dereference" ∧
    (manager.CreateTransition sampleCollaborators sampleManager Transition.nilPtr []
      { height := 6, timestamp := 200 }).out ≠
        Outcome.ret (Transition.nil, some Error.ErrIllegalArgument) := by
  refine ⟨by decide, fun t h => Transition.noConfusion h, rfl, ?_, rfl, ?_⟩
  · intro h
    cases h
  · intro h
    cases h

/-- C7, amended: for every parent that is another Transition implementation or a
non-nil `*transition` in a step other than Complete, `ProposeTransition` and
`CreateTransition` return the illegal-argument error and no transition, without
any call that reads the parent's world snapshot, selects candidates or builds a
child; for a transition whose step is Complete, `checkTransitionResult` returns
that transition and no error; for a nil `*transition` held in an interface the
check panics reading the step, and both calls panic with no collaborator
call made. -/
theorem parent_guard (K : Collaborators) (m : manager) (txList : List Transaction)
    (bi : blockInfo) :
    (∀ parent : Transition, parent ≠ Transition.nil → parent ≠ Transition.nilPtr →
      (∀ t, parent = Transition.ptr t → t.step ≠ K.stepComplete) →
      (manager.ProposeTransition K m parent bi).out =
        Outcome.ret (Transition.nil, some Error.ErrIllegalArgument) ∧
      (manager.ProposeTransition K m parent bi).events = [] ∧
      (manager.CreateTransition K m parent txList bi).out =
        Outcome.ret (Transition.nil, some Error.ErrIllegalArgument) ∧
      (manager.CreateTransition K m parent txList bi).events = []) ∧
    (∀ t : transition, t.step = K.stepComplete →
      manager.checkTransitionResult K.stepComplete (Transition.ptr t) =
        Outcome.ret (some t, none)) ∧
    (manager.checkTransitionResult K.stepComplete Transition.nilPtr =
        Outcome.panic "nil pointer dereference" ∧
      (manager.ProposeTransition K m Transition.nilPtr bi).out =
        Outcome.panic "nil pointer dereference" ∧
      (manager.ProposeTransition K m Transition.nilPtr bi).events = [] ∧
      (manager.CreateTransition K m Transition.nilPtr txList bi).out =
        Outcome.panic "nil pointer dereference" ∧
      (manager.CreateTransition K m Transition.nilPtr txList bi).events = []) := by
  refine ⟨fun parent hnil hptr hnot => ?_, fun t ht => ?_, rfl, rfl, rfl, rfl, rfl⟩
  · have h := checkTransitionResult_refuses K.stepComplete parent hnil hptr hnot
    simp only [manager.ProposeTransition, manager.CreateTransition, h, and_self]
  · simp only [manager.checkTransitionResult, ht, ne_eq, not_true_eq_false, if_false]

/-- C7, amended, at concrete inputs: a transition in step 3 and a foreign
implementation are refused by `ProposeTransition`; a transition in step 4
passes the check. -/
theorem parent_guard_witness :
    (manager.ProposeTransition sampleCollaborators sampleManager
      (Transition.ptr { sampleTransition with step := 3 }) { height := 6, timestamp := 200 }).out =
        Outcome.ret (Transition.nil, some Error.ErrIllegalArgument) ∧
    (manager.ProposeTransition sampleCollaborators sampleManager
      (Transition.other 1) { height := 6, timestamp := 200 }).events = [] ∧
    manager.checkTransitionResult sampleCollaborators.stepComplete
      (Transition.ptr sampleTransition) = Outcome.ret (some sampleTransition, none) :=
  ⟨((parent_guard sampleCollaborators sampleManager [] { height := 6, timestamp := 200 }).1
      (Transition.ptr { sampleTransition with step := 3 }) (by decide) (by decide)
      (fun t ht => by cases ht; decide)).1,
   ((parent_guard sampleCollaborators sampleManager [] { height := 6, timestamp := 200 }).1
      (Transition.other 1) (by decide) (by decide) (fun t ht => by cases ht)).2.1,
   (parent_guard sampleCollaborators sampleManager [] { height := 6, timestamp := 200 }).2.1
      sampleTransition rfl⟩

/-- For naturals, `n & 2^k == 2^k` says that bit `k` of `n` is set. -/
theorem nat_land_two_pow (n k : Nat) : n &&& 2 ^ k = 2 ^ k ↔ n.testBit k = true := by
  constructor
  · intro h
    have := congrArg (fun x => x.testBit k) h
    simpa [Nat.testBit_and, Nat.testBit_two_pow_self] using this
  · intro h
    apply Nat.eq_of_testBit_eq
    intro i
    rw [Nat.testBit_and, Nat.testBit_two_pow]
    by_cases hik : k = i
    · subst hik
      simp [h]
    · simp [hik]

/-- For naturals, `2^k &^ n == 2^k` says that bit `k` of `n` is clear. -/
theorem nat_ldiff_two_pow (n k : Nat) :
    Nat.ldiff (2 ^ k) n = 2 ^ k ↔ n.testBit k = false := by
  constructor
  · intro h
    have := congrArg (fun x => x.testBit k) h
    simpa [Nat.testBit_ldiff, Nat.testBit_two_pow_self] using this
  · intro h
    apply Nat.eq_of_testBit_eq
    intro i
    rw [Nat.testBit_ldiff, Nat.testBit_two_pow]
    by_cases hik : k = i
    · subst hik
      simp [h]
    · simp [hik]

/-- The test `opt & 2^k == 2^k` of `Finalize` holds exactly when bit `k` of the
two's complement `opt` is set. -/
theorem int_land_two_pow (opt : Int) (k : Nat) :
    Int.land opt ((2 ^ k : Nat) : Int) = ((2 ^ k : Nat) : Int) ↔ opt.testBit k = true := by
  cases opt with
  | ofNat n =>
    show (((n &&& 2 ^ k : Nat) : Int) = ((2 ^ k : Nat) : Int)) ↔ n.testBit k = true
    rw [Int.ofNat_inj]
    exact nat_land_two_pow n k
  | negSucc n =>
    show (((Nat.ldiff (2 ^ k) n : Nat) : Int) = ((2 ^ k : Nat) : Int)) ↔ (!n.testBit k) = true
    rw [Int.ofNat_inj, nat_ldiff_two_pow]
    cases n.testBit k <;> simp

/-- The three tests of `Finalize` in terms of the bits of `opt`. -/
theorem finalize_bits (opt : Int) :
    (Int.land opt FinalizeNormalTransaction = FinalizeNormalTransaction ↔
      opt.testBit 0 = true) ∧
    (Int.land opt FinalizePatchTransaction = FinalizePatchTransaction ↔
      opt.testBit 1 = true) ∧
    (Int.land opt FinalizeResult = FinalizeResult ↔ opt.testBit 2 = true) :=
  ⟨int_land_two_pow opt 0, int_land_two_pow opt 1, int_land_two_pow opt 2⟩

/-- `Finalize` when every commit step succeeds. -/
theorem Finalize_of_ok (steps : CommitSteps) (now : Nat) (m : manager) (t : transition)
    (opt : Int) (hn : steps.finalizeNormalTransaction = none)
    (hp : steps.finalizePatchTransaction = none) (hr : steps.finalizeResult = none) :
    manager.Finalize steps now m (Transition.ptr t) opt =
      { out := Outcome.ret none,
        m := { m with
          patchTxPool :=
            if opt.testBit 1 = true then finalizedPool m.patchTxPool t.patchTransactions t m
            else m.patchTxPool,
          normalTxPool :=
            if opt.testBit 0 = true then finalizedPool m.normalTxPool t.normalTransactions t m
            else m.normalTxPool },
        events :=
          (if opt.testBit 0 = true then [Event.finalizeNormalTransaction] else []) ++
          (if opt.testBit 1 = true then [Event.finalizePatchTransaction] else []) ++
          (if opt.testBit 2 = true then
            [Event.finalizeResult, Event.OnFinalize TxType.patch t.patchTransactions now,
             Event.OnFinalize TxType.normal t.normalTransactions now]
           else []) } := by
  obtain ⟨b0, b1, b2⟩ := finalize_bits opt
  unfold manager.Finalize
  simp only [Id.run, bind, pure, hn, hp, hr, b0, b1, b2, finalizedPool]
  cases opt.testBit 0 <;> cases opt.testBit 1 <;> cases opt.testBit 2 <;> simp

/-- An `int64` difference that does not overflow is the plain difference. -/
theorem int64_of_inRange (x : Int) (hlo : -(2 ^ 63) ≤ x) (hhi : x < 2 ^ 63) : int64 x = x := by
  unfold int64
  norm_num at hlo hhi ⊢
  omega

/-- Who is in a pool after `Finalize` has taken a component out of it: the
transactions that were in it, are not listed and are not older than the cutoff. -/
theorem mem_finalizedPool (tp : TransactionPool) (txs : List Transaction) (t : transition)
    (m : manager) (tx : Transaction) :
    tx ∈ (finalizedPool tp txs t m).list ↔
      tx ∈ tp.list ∧ (∀ r ∈ txs, r.id ≠ tx.id) ∧
      ¬ tx.timestamp < int64 (t.bi.Timestamp - m.threshold) := by
  simp only [finalizedPool, TransactionPool.RemoveList, TransactionPool.RemoveOldTXs,
    List.mem_filter, Bool.not_eq_true', decide_eq_false_iff_not, List.any_eq_false, beq_iff_eq]
  constructor
  · rintro ⟨⟨h1, h2⟩, h3⟩
    exact ⟨h1, h2, h3⟩
  · rintro ⟨h1, h2, h3⟩
    exact ⟨⟨h1, h2⟩, h3⟩

/-- C8: when the commit steps succeed, `Finalize(t, opt)` returns nil and handles
each component exactly when its own bit of `opt` is set, whatever the other bits
are: bit 0 (FinalizeNormalTransaction) commits the normal transactions and takes
t's normal transactions and those older than timestamp minus threshold out of
the normal pool; bit 1 (FinalizePatchTransaction) does the same for the patch
list and pool; bit 2 (FinalizeResult) commits the result and notifies the patch
and the normal metric.  A component whose bit is clear leaves its pool alone
and makes no call; with `opt = 0` nothing changes. -/
theorem Finalize_bitmask (steps : CommitSteps) (now : Nat) (m : manager) (t : transition)
    (opt : Int) (hn : steps.finalizeNormalTransaction = none)
    (hp : steps.finalizePatchTransaction = none) (hr : steps.finalizeResult = none) :
    (manager.Finalize steps now m (Transition.ptr t) opt).out = Outcome.ret none ∧
    (manager.Finalize steps now m (Transition.ptr t) opt).m.normalTxPool =
      (if opt.testBit 0 = true then
        (m.normalTxPool.RemoveList t.normalTransactions).RemoveOldTXs
          (int64 (t.bi.Timestamp - m.threshold))
       else m.normalTxPool) ∧
    (manager.Finalize steps now m (Transition.ptr t) opt).m.patchTxPool =
      (if opt.testBit 1 = true then
        (m.patchTxPool.RemoveList t.patchTransactions).RemoveOldTXs
          (int64 (t.bi.Timestamp - m.threshold))
       else m.patchTxPool) ∧
    (manager.Finalize steps now m (Transition.ptr t) opt).events =
      (if opt.testBit 0 = true then [Event.finalizeNormalTransaction] else []) ++
      (if opt.testBit 1 = true then [Event.finalizePatchTransaction] else []) ++
      (if opt.testBit 2 = true then
        [Event.finalizeResult, Event.OnFinalize TxType.patch t.patchTransactions now,
         Event.OnFinalize TxType.normal t.normalTransactions now]
       else []) ∧
    (opt = 0 →
      (manager.Finalize steps now m (Transition.ptr t) opt).m = m ∧
      (manager.Finalize steps now m (Transition.ptr t) opt).events = []) := by
  rw [Finalize_of_ok steps now m t opt hn hp hr]
  refine ⟨rfl, rfl, rfl, rfl, fun h0 => ?_⟩
  subst h0
  exact ⟨rfl, rfl⟩

/-- C8 at a concrete input: `opt = 5` (normal transactions and result) on
`sampleManager`: the normal pool keeps only `[3]`, the patch pool is untouched. -/
theorem Finalize_bitmask_witness :
    (manager.Finalize stepsOk 7 sampleManager (Transition.ptr sampleTransition) 5).m.normalTxPool =
      { list := [{ id := [3], timestamp := 300 }] } ∧
    (manager.Finalize stepsOk 7 sampleManager (Transition.ptr sampleTransition) 5).m.patchTxPool =
      sampleManager.patchTxPool ∧
    (manager.Finalize stepsOk 7 sampleManager (Transition.ptr sampleTransition) 5).events =
      [Event.finalizeNormalTransaction, Event.finalizeResult,
       Event.OnFinalize TxType.patch sampleTransition.patchTransactions 7,
       Event.OnFinalize TxType.normal sampleTransition.normalTransactions 7] :=
  ⟨(Finalize_bitmask stepsOk 7 sampleManager sampleTransition 5 rfl rfl rfl).2.1.trans
      (by decide),
   (Finalize_bitmask stepsOk 7 sampleManager sampleTransition 5 rfl rfl rfl).2.2.1.trans
      (by decide),
   (Finalize_bitmask stepsOk 7 sampleManager sampleTransition 5 rfl rfl rfl).2.2.2.1.trans
      (by decide)⟩

/-- Filtering by two tests a second time removes nothing more. -/
theorem filter_twice {α : Type} (f g : α → Bool) (l : List α) :
    (((l.filter f).filter g).filter f).filter g = (l.filter f).filter g := by
  simp only [List.filter_filter]
  congr 1
  funext a
  cases f a <;> cases g a <;> rfl

/-- Taking a component out of a pool twice is taking it out once. -/
theorem finalizedPool_idem (tp : TransactionPool) (txs : List Transaction) (t : transition)
    (m n : manager) (h : n.threshold = m.threshold) :
    finalizedPool (finalizedPool tp txs t m) txs t n = finalizedPool tp txs t m := by
  unfold finalizedPool TransactionPool.RemoveList TransactionPool.RemoveOldTXs
  rw [h]
  exact congrArg TransactionPool.mk (filter_twice _ _ _)

/-- The pools after `Finalize`, whatever the commit steps return: a pool is
either untouched or has had its component taken out, the latter only if the
bit is set and always if the bit is set and the call returned nil. -/
theorem Finalize_pools (steps : CommitSteps) (now : Nat) (m : manager) (t : transition)
    (opt : Int) :
    (manager.Finalize steps now m (Transition.ptr t) opt).m.threshold = m.threshold ∧
    ((manager.Finalize steps now m (Transition.ptr t) opt).m.normalTxPool = m.normalTxPool ∨
      (opt.testBit 0 = true ∧
        (manager.Finalize steps now m (Transition.ptr t) opt).m.normalTxPool =
          finalizedPool m.normalTxPool t.normalTransactions t m)) ∧
    ((manager.Finalize steps now m (Transition.ptr t) opt).out = Outcome.ret none →
      (manager.Finalize steps now m (Transition.ptr t) opt).m.normalTxPool =
        (if opt.testBit 0 = true then finalizedPool m.normalTxPool t.normalTransactions t m
         else m.normalTxPool)) ∧
    ((manager.Finalize steps now m (Transition.ptr t) opt).m.patchTxPool = m.patchTxPool ∨
      (opt.testBit 1 = true ∧
        (manager.Finalize steps now m (Transition.ptr t) opt).m.patchTxPool =
          finalizedPool m.patchTxPool t.patchTransactions t m)) ∧
    ((manager.Finalize steps now m (Transition.ptr t) opt).out = Outcome.ret none →
      (manager.Finalize steps now m (Transition.ptr t) opt).m.patchTxPool =
        (if opt.testBit 1 = true then finalizedPool m.patchTxPool t.patchTransactions t m
         else m.patchTxPool)) := by
  obtain ⟨b0, b1, b2⟩ := finalize_bits opt
  unfold manager.Finalize
  simp only [Id.run, bind, pure, b0, b1, b2, finalizedPool]
  cases opt.testBit 0 <;> cases opt.testBit 1 <;> cases opt.testBit 2 <;>
    cases steps.finalizeNormalTransaction <;> cases steps.finalizePatchTransaction <;>
    cases steps.finalizeResult <;> simp

/-- C9 as stated fails: after a successful `Finalize(t, FinalizeResult)` on a
transition in step Complete, a second call with the same mask notifies the
patch metric and the normal metric once more. -/
theorem Finalize_twice_counterexample :
    sampleTransition.step = sampleCollaborators.stepComplete ∧
    (manager.Finalize stepsOk 1 sampleManager (Transition.ptr sampleTransition)
      FinalizeResult).out = Outcome.ret none ∧
    (manager.Finalize stepsOk 2
      (manager.Finalize stepsOk 1 sampleManager (Transition.ptr sampleTransition)
        FinalizeResult).m (Transition.ptr sampleTransition) FinalizeResult).events =
      [Event.finalizeResult, Event.OnFinalize TxType.patch sampleTransition.patchTransactions 2,
       Event.OnFinalize TxType.normal sampleTransition.normalTransactions 2] := by
  refine ⟨by decide, by decide, by decide⟩

/-- C9, amended: after a first `Finalize(t, opt)` that returned nil, a second
call with the same mask leaves both pools exactly as the first call left them,
whatever its commit steps return; but when FinalizeResult is set and its commit
steps succeed, the second call again notifies the patch metric and the normal
metric. -/
theorem Finalize_twice (steps1 steps2 : CommitSteps) (now1 now2 : Nat) (m : manager)
    (t : transition) (opt : Int)
    (hfirst : (manager.Finalize steps1 now1 m (Transition.ptr t) opt).out = Outcome.ret none) :
    (manager.Finalize steps2 now2 (manager.Finalize steps1 now1 m (Transition.ptr t) opt).m
      (Transition.ptr t) opt).m.normalTxPool =
        (manager.Finalize steps1 now1 m (Transition.ptr t) opt).m.normalTxPool ∧
    (manager.Finalize steps2 now2 (manager.Finalize steps1 now1 m (Transition.ptr t) opt).m
      (Transition.ptr t) opt).m.patchTxPool =
        (manager.Finalize steps1 now1 m (Transition.ptr t) opt).m.patchTxPool ∧
    (opt.testBit 2 = true → steps2.finalizeNormalTransaction = none →
      steps2.finalizePatchTransaction = none → steps2.finalizeResult = none →
      Event.OnFinalize TxType.patch t.patchTransactions now2 ∈
        (manager.Finalize steps2 now2 (manager.Finalize steps1 now1 m (Transition.ptr t) opt).m
          (Transition.ptr t) opt).events ∧
      Event.OnFinalize TxType.normal t.normalTransactions now2 ∈
        (manager.Finalize steps2 now2 (manager.Finalize steps1 now1 m (Transition.ptr t) opt).m
          (Transition.ptr t) opt).events) := by
  obtain ⟨hT, _, hN1, _, hP1⟩ := Finalize_pools steps1 now1 m t opt
  obtain ⟨_, hN2, _, hP2, _⟩ := Finalize_pools steps2 now2
    (manager.Finalize steps1 now1 m (Transition.ptr t) opt).m t opt
  refine ⟨?_, ?_, fun h2 hn hp hr => ?_⟩
  · cases hN2 with
    | inl h => exact h
    | inr h =>
      obtain ⟨hb, h⟩ := h
      have h1 := hN1 hfirst
      rw [if_pos hb] at h1
      rw [h, h1]
      exact finalizedPool_idem _ _ _ _ _ hT
  · cases hP2 with
    | inl h => exact h
    | inr h =>
      obtain ⟨hb, h⟩ := h
      have h1 := hP1 hfirst
      rw [if_pos hb] at h1
      rw [h, h1]
      exact finalizedPool_idem _ _ _ _ _ hT
  · rw [Finalize_of_ok steps2 now2 _ t opt hn hp hr]
    simp [h2]

/-- C9, amended, at a concrete input: `opt = 7` twice on `sampleManager`. -/
theorem Finalize_twice_witness :
    (manager.Finalize stepsOk 2
      (manager.Finalize stepsOk 1 sampleManager (Transition.ptr sampleTransition) 7).m
      (Transition.ptr sampleTransition) 7).m.normalTxPool =
        (manager.Finalize stepsOk 1 sampleManager (Transition.ptr sampleTransition)
          7).m.normalTxPool ∧
    (manager.Finalize stepsOk 2
      (manager.Finalize stepsOk 1 sampleManager (Transition.ptr sampleTransition) 7).m
      (Transition.ptr sampleTransition) 7).m.patchTxPool =
        (manager.Finalize stepsOk 1 sampleManager (Transition.ptr sampleTransition)
          7).m.patchTxPool ∧
    Event.OnFinalize TxType.patch sampleTransition.patchTransactions 2 ∈
      (manager.Finalize stepsOk 2
        (manager.Finalize stepsOk 1 sampleManager (Transition.ptr sampleTransition) 7).m
        (Transition.ptr sampleTransition) 7).events :=
  ⟨(Finalize_twice stepsOk stepsOk 1 2 sampleManager sampleTransition 7 (by decide)).1,
   (Finalize_twice stepsOk stepsOk 1 2 sampleManager sampleTransition 7 (by decide)).2.1,
   ((Finalize_twice stepsOk stepsOk 1 2 sampleManager sampleTransition 7 (by decide)).2.2
      (by decide) rfl rfl rfl).1⟩

/-- C10 as stated fails: `SetCode` on the read-only view over the snapshot at
address 0 does not return the InvalidState error; it panics in `log.Panicf`
before the return statement is reached. -/
theorem readOnly_SetCode_counterexample :
    newContractROState (ContractSnapshot.impl (some 0)) =
      some { ContractSnapshot := ContractSnapshot.impl (some 0) } ∧
    (contractROState.SetCode sampleHeap { ContractSnapshot := ContractSnapshot.impl (some 0) }
      (some [1])).1 = Outcome.panic "contractROState().SetCode() is invoked" ∧
    (contractROState.SetCode sampleHeap { ContractSnapshot := ContractSnapshot.impl (some 0) }
      (some [1])).1 ≠ Outcome.ret (some Error.InvalidStateError) := by
  refine ⟨by decide, by decide, by decide⟩

/-- C10, amended: `newContractROState` over a non-nil snapshot yields a view that
wraps it; `SetCode` on that view never succeeds and never returns at all, for
any code: it panics, and memory (so every field of the wrapped snapshot) is
unchanged; `newContractROState` of the nil snapshot yields no view. -/
theorem readOnly_SetCode (h : Heap) (snapshot : ContractSnapshot) (code : Bytes)
    (hs : snapshot ≠ ContractSnapshot.nil) :
    (∃ v, newContractROState snapshot = some v ∧ v.ContractSnapshot = snapshot ∧
      (v.SetCode h code).1 = Outcome.panic "contractROState().SetCode() is invoked" ∧
      (∀ e, (v.SetCode h code).1 ≠ Outcome.ret e) ∧
      (v.SetCode h code).2 = h) ∧
    newContractROState ContractSnapshot.nil = none := by
  refine ⟨⟨{ ContractSnapshot := snapshot }, ?_, rfl, rfl, fun e he => ?_, rfl⟩, rfl⟩
  · simp only [newContractROState, if_neg hs]
  · simp only [contractROState.SetCode, logPanicf, Outcome.bind] at he
    cases he

/-- C10, amended, at a concrete input: the view over the snapshot at address 0
of `sampleHeap`, empty code. -/
theorem readOnly_SetCode_witness :
    (∃ v, newContractROState (ContractSnapshot.impl (some 0)) = some v ∧
      v.ContractSnapshot = ContractSnapshot.impl (some 0) ∧
      (v.SetCode sampleHeap none).1 = Outcome.panic "contractROState().SetCode() is invoked" ∧
      (∀ e, (v.SetCode sampleHeap none).1 ≠ Outcome.ret e) ∧
      (v.SetCode sampleHeap none).2 = sampleHeap) ∧
    newContractROState ContractSnapshot.nil = none :=
  readOnly_SetCode sampleHeap (ContractSnapshot.impl (some 0)) none (by decide)

/-- `SendPatch` on a non-nil patch that is refused. -/
theorem SendPatch_refused (PatchTypeSkipTransaction : String) (slot : Option Patch)
    (data : Patch)
    (h : data.type ≠ PatchTypeSkipTransaction ∨ data.skipHeight = none ∨
      ∃ k, data.skipHeight = some k ∧ k < 1) :
    manager.SendPatch PatchTypeSkipTransaction slot (some data) =
      (Outcome.ret (some Error.InvalidPatchDataError), slot) := by
  unfold manager.SendPatch
  by_cases ht : data.type = PatchTypeSkipTransaction
  · simp only [if_pos ht]
    rcases h with h | h | ⟨k, hk, hk1⟩
    · exact absurd ht h
    · simp only [h]
    · simp only [hk, if_pos hk1]
  · simp only [if_neg ht]

/-- `SendPatch` on a non-nil patch that passes the three tests: what happens is
what the store into the slot does. -/
theorem SendPatch_stores (PatchTypeSkipTransaction : String) (slot : Option Patch)
    (data : Patch) (k : Int) (ht : data.type = PatchTypeSkipTransaction)
    (hk : data.skipHeight = some k) (hk1 : 1 ≤ k) :
    manager.SendPatch PatchTypeSkipTransaction slot (some data) =
      (match atomicValueStore slot data with
       | Outcome.panic msg => (Outcome.panic msg, slot)
       | Outcome.ret v => (Outcome.ret none, v)) := by
  have hlt : ¬ k < 1 := by omega
  simp only [manager.SendPatch, if_pos ht, hk, if_neg hlt]

/-- C11 as stated fails: with nil data `SendPatch` panics instead of returning
InvalidPatchData; and a patch of type PatchTypeSkipTransaction that implements
SkipTransactionPatch with height 5 is not stored when the slot holds a patch
of another concrete type: the store panics and the slot keeps its value. -/
theorem SendPatch_counterexample :
    manager.SendPatch "skip_txs" none none = (Outcome.panic "nil pointer dereference", none) ∧
    samplePatch.type = "skip_txs" ∧ samplePatch.skipHeight = some 5 ∧
    manager.SendPatch "skip_txs" (some { samplePatch with concrete := 2 }) (some samplePatch) =
      (Outcome.panic "sync/atomic: store of inconsistently typed value into Value",
        some { samplePatch with concrete := 2 }) := by
  refine ⟨by decide, by decide, by decide, by decide⟩

/-- C11, amended: for non-nil `data`, `SendPatch` returns InvalidPatchData and
the slot keeps its value when the type of `data` is not
PatchTypeSkipTransaction, `data` does not implement SkipTransactionPatch or its
height is below 1; when the slot is empty or holds a patch of the concrete
type of `data`, `SendPatch` returns nil exactly when the three tests pass, and
then the slot holds `data`; when the tests pass and the slot holds a patch of
another concrete type the store panics and the slot keeps its value; with nil
`data` the call panics and the slot keeps its value. -/
theorem SendPatch_spec (PatchTypeSkipTransaction : String) (slot : Option Patch)
    (data : Patch) :
    ((data.type ≠ PatchTypeSkipTransaction ∨ data.skipHeight = none ∨
        ∃ k, data.skipHeight = some k ∧ k < 1) →
      manager.SendPatch PatchTypeSkipTransaction slot (some data) =
        (Outcome.ret (some Error.InvalidPatchDataError), slot)) ∧
    ((∀ old, slot = some old → old.concrete = data.concrete) →
      ((manager.SendPatch PatchTypeSkipTransaction slot (some data)).1 = Outcome.ret none ↔
        data.type = PatchTypeSkipTransaction ∧ ∃ k, data.skipHeight = some k ∧ 1 ≤ k) ∧
      ((manager.SendPatch PatchTypeSkipTransaction slot (some data)).1 = Outcome.ret none →
        (manager.SendPatch PatchTypeSkipTransaction slot (some data)).2 = some data)) ∧
    (∀ old, slot = some old → old.concrete ≠ data.concrete →
      data.type = PatchTypeSkipTransaction → (∃ k, data.skipHeight = some k ∧ 1 ≤ k) →
      manager.SendPatch PatchTypeSkipTransaction slot (some data) =
        (Outcome.panic "sync/atomic: store of inconsistently typed value into Value", slot)) ∧
    manager.SendPatch PatchTypeSkipTransaction slot none =
      (Outcome.panic "nil pointer dereference", slot) := by
  refine ⟨SendPatch_refused PatchTypeSkipTransaction slot data, fun hslot => ?_,
    fun old hold hne ht hk => ?_, rfl⟩
  · have hstore : atomicValueStore slot data = Outcome.ret (some data) := by
      cases slot with
      | none => rfl
      | some old => simp only [atomicValueStore, if_pos (hslot old rfl)]
    by_cases hpass : data.type = PatchTypeSkipTransaction ∧ ∃ k, data.skipHeight = some k ∧ 1 ≤ k
    · obtain ⟨ht, k, hk, hk1⟩ := hpass
      rw [SendPatch_stores PatchTypeSkipTransaction slot data k ht hk hk1, hstore]
      exact ⟨⟨fun _ => ⟨ht, k, hk, hk1⟩, fun _ => rfl⟩, fun _ => rfl⟩
    · have href : data.type ≠ PatchTypeSkipTransaction ∨ data.skipHeight = none ∨
          ∃ k, data.skipHeight = some k ∧ k < 1 := by
        by_cases ht : data.type = PatchTypeSkipTransaction
        · right
          cases hs : data.skipHeight with
          | none => exact Or.inl rfl
          | some k =>
            right
            refine ⟨k, rfl, ?_⟩
            by_contra hlt
            exact hpass ⟨ht, k, hs, by omega⟩
        · exact Or.inl ht
      rw [SendPatch_refused PatchTypeSkipTransaction slot data href]
      refine ⟨⟨fun h => ?_, fun h => absurd h hpass⟩, fun h => ?_⟩
      · exact absurd h (by simp)
      · exact absurd h (by simp)
  · obtain ⟨k, hk, hk1⟩ := hk
    rw [SendPatch_stores PatchTypeSkipTransaction slot data k ht hk hk1, hold]
    simp only [atomicValueStore, if_neg hne]

/-- C11, amended, at concrete inputs: a skip patch for height 5 is stored over an
empty slot; one for height 0 is refused and the slot keeps the earlier patch. -/
theorem SendPatch_spec_witness :
    manager.SendPatch "skip_txs" none (some samplePatch) = (Outcome.ret none, some samplePatch) ∧
    manager.SendPatch "skip_txs" (some samplePatch)
        (some { samplePatch with skipHeight := some 0 }) =
      (Outcome.ret (some Error.InvalidPatchDataError), some samplePatch) :=
  ⟨Prod.ext
      ((((SendPatch_spec "skip_txs" none samplePatch).2.1
        (fun old h => Option.noConfusion h)).1).2 ⟨rfl, 5, rfl, by decide⟩)
      (((SendPatch_spec "skip_txs" none samplePatch).2.1
        (fun old h => Option.noConfusion h)).2
        ((((SendPatch_spec "skip_txs" none samplePatch).2.1
          (fun old h => Option.noConfusion h)).1).2 ⟨rfl, 5, rfl, by decide⟩)),
   (SendPatch_spec "skip_txs" (some samplePatch) { samplePatch with skipHeight := some 0 }).1
      (Or.inr (Or.inr ⟨0, rfl, by decide⟩))⟩

/-- C12 as stated fails: with a cache that answers NotFound for the result hash
`[9]`, `GetRoundLimit` returns the ordinary value 0 and `GetMinimizeBlockGen`
returns false (neither has an error result); `GetAPIInfo` for an address that
is not a contract returns NotContractAddress, not the not-found error; and
`Call` with a well-formed payload and a nil validator list, and `GetAPIInfo`
with a nil address, panic before the lookup. -/
theorem query_notFound_counterexample :
    unknownResults.GetWorldSnapshot (some [9]) none = Except.error Error.NotFoundError ∧
    manager.GetRoundLimit unknownResults (some [9]) 4 = 0 ∧
    manager.GetMinimizeBlockGen unknownResults (some [9]) = false ∧
    manager.GetAPIInfo unknownResults (some [9]) (some { isContract := false, id := [7] }) =
      Outcome.ret (none, some Error.NotContractAddressError) ∧
    manager.Call unknownResults (some [9]) none (some [1]) { height := 1, timestamp := 2 } =
      Outcome.panic "nil pointer dereference" ∧
    manager.GetAPIInfo unknownResults (some [9]) none =
      Outcome.panic "nil pointer dereference" :=
  ⟨rfl, rfl, rfl, rfl, rfl, rfl⟩

/-- C12, amended: when the cache lookup for a result hash fails with an error
`e` (the not-found error), `GetBalance` (for every address, nil or not),
`GetTotalSupply`, `GetNetworkID` and `GetMembers` return `e` and no value;
`Call` with a well-formed payload returns `e` for every non-nil validator list
and panics for the nil one; `GetAPIInfo` returns `e` for a contract address,
NotContractAddress for any other non-nil address, and panics for the nil
address; `GetRoundLimit` returns 0 and `GetMinimizeBlockGen` returns false. -/
theorem query_notFound (Q : QueryCollaborators) (result vlHash js : Bytes) (bi : blockInfo)
    (addr : Address) (vl : Int) (e : Error) (jso : callJSON)
    (hlookup : ∀ vh, Q.GetWorldSnapshot result vh = Except.error e)
    (hjs : Q.jsonUnmarshal js = some jso) (hdt : jso.DataType = some Q.DataTypeCall) :
    (∀ a : Option Address, manager.GetBalance Q result a = Outcome.ret (none, some e)) ∧
    manager.GetTotalSupply Q result = (none, some e) ∧
    manager.GetNetworkID Q result = (0, some e) ∧
    manager.GetMembers Q result = (none, some e) ∧
    manager.Call Q result (some vlHash) js bi = Outcome.ret (none, some e) ∧
    (addr.isContract = true →
      manager.GetAPIInfo Q result (some addr) = Outcome.ret (none, some e)) ∧
    (addr.isContract = false →
      manager.GetAPIInfo Q result (some addr) =
        Outcome.ret (none, some Error.NotContractAddressError)) ∧
    manager.GetRoundLimit Q result vl = 0 ∧
    manager.GetMinimizeBlockGen Q result = false ∧
    manager.Call Q result none js bi = Outcome.panic "nil pointer dereference" ∧
    manager.GetAPIInfo Q result none = Outcome.panic "nil pointer dereference" := by
  have hcond : ¬ (jso.DataType = none ∨ jso.DataType ≠ some Q.DataTypeCall) := by
    rw [hdt]
    simp
  refine ⟨fun a => ?_, ?_, ?_, ?_, ?_, fun hc => ?_, fun hc => ?_, ?_, ?_, ?_, rfl⟩
  · simp only [manager.GetBalance, hlookup]
  · simp only [manager.GetTotalSupply, hlookup]
  · simp only [manager.GetNetworkID, hlookup]
  · simp only [manager.GetMembers, hlookup]
  · simp only [manager.Call, hjs, if_neg hcond, hlookup]
  · simp [manager.GetAPIInfo, hc, hlookup]
  · simp [manager.GetAPIInfo, hc]
  · simp only [manager.GetRoundLimit, hlookup]
  · simp only [manager.GetMinimizeBlockGen, hlookup]
  · simp only [manager.Call, hjs, if_neg hcond]

/-- C12, amended, at a concrete input: result hash `[9]` unknown to the cache,
payload `[1]`, a contract address, a validator list with hash `[3]`. -/
theorem query_notFound_witness :
    manager.GetBalance unknownResults (some [9]) none =
      Outcome.ret (none, some Error.NotFoundError) ∧
    manager.GetTotalSupply unknownResults (some [9]) = (none, some Error.NotFoundError) ∧
    manager.GetNetworkID unknownResults (some [9]) = (0, some Error.NotFoundError) ∧
    manager.GetMembers unknownResults (some [9]) = (none, some Error.NotFoundError) ∧
    manager.Call unknownResults (some [9]) (some (some [3])) (some [1])
        { height := 1, timestamp := 2 } =
      Outcome.ret (none, some Error.NotFoundError) ∧
    ({ isContract := true, id := [7] } : Address).isContract = true ∧
    manager.GetAPIInfo unknownResults (some [9]) (some { isContract := true, id := [7] }) =
      Outcome.ret (none, some Error.NotFoundError) :=
  ⟨(query_notFound unknownResults (some [9]) (some [3]) (some [1]) { height := 1, timestamp := 2 }
      { isContract := true, id := [7] } 4 Error.NotFoundError
      { To := { isContract := true, id := [7] }, DataType := some "call", Data := some [1] }
      (fun _ => rfl) rfl rfl).1 none,
   (query_notFound unknownResults (some [9]) (some [3]) (some [1]) { height := 1, timestamp := 2 }
      { isContract := true, id := [7] } 4 Error.NotFoundError
      { To := { isContract := true, id := [7] }, DataType := some "call", Data := some [1] }
      (fun _ => rfl) rfl rfl).2.1,
   (query_notFound unknownResults (some [9]) (some [3]) (some [1]) { height := 1, timestamp := 2 }
      { isContract := true, id := [7] } 4 Error.NotFoundError
      { To := { isContract := true, id := [7] }, DataType := some "call", Data := some [1] }
      (fun _ => rfl) rfl rfl).2.2.1,
   (query_notFound unknownResults (some [9]) (some [3]) (some [1]) { height := 1, timestamp := 2 }
      { isContract := true, id := [7] } 4 Error.NotFoundError
      { To := { isContract := true, id := [7] }, DataType := some "call", Data := some [1] }
      (fun _ => rfl) rfl rfl).2.2.2.1,
   (query_notFound unknownResults (some [9]) (some [3]) (some [1]) { height := 1, timestamp := 2 }
      { isContract := true, id := [7] } 4 Error.NotFoundError
      { To := { isContract := true, id := [7] }, DataType := some "call", Data := some [1] }
      (fun _ => rfl) rfl rfl).2.2.2.2.1,
   rfl,
   (query_notFound unknownResults (some [9]) (some [3]) (some [1]) { height := 1, timestamp := 2 }
      { isContract := true, id := [7] } 4 Error.NotFoundError
      { To := { isContract := true, id := [7] }, DataType := some "call", Data := some [1] }
      (fun _ => rfl) rfl rfl).2.2.2.2.2.1 rfl⟩

/-- C13: the code at a failing input.  For the malformed byte string `[2]` the
parser returns an error; `TransactionFromBytes` and
`GenesisTransactionFromBytes` write it to the log and return a nil error (with a
nil transaction), where the sibling `ReceiptListFromResult` hands the error of
its lookup to the caller. -/
theorem TransactionFromBytes_drops_error :
    sampleParser (some [2]) = (none, some (Error.parse 1)) ∧
    manager.TransactionFromBytes sampleParser (some [2]) 2 =
      { tx := none, err := none, logged := [Error.parse 1] } ∧
    manager.GenesisTransactionFromBytes sampleParser (some [2]) 2 =
      { tx := none, err := none, logged := [Error.parse 1] } ∧
    manager.TransactionFromBytes sampleParser (some [1]) 2 =
      { tx := some { id := [1], timestamp := 100 }, err := none, logged := [] } ∧
    manager.ReceiptListFromResult (fun _ _ => Except.error Error.NotFoundError) (some [9])
      TxType.normal = (none, some Error.NotFoundError) := by
  refine ⟨by decide, by decide, by decide, by decide, by decide⟩

/-- C14: `Resolve` returns the error of the bucket when reading key codeHash
fails (nothing else happens); when the bucket yields nil it registers exactly
one request (bytes-by-hash bucket, codeHash, this snapshot), leaves the snapshot
as it is and returns nil; when the bucket yields bytes it makes exactly those
bytes the code, registers no request and returns nil. -/
theorem Resolve_spec {σ : Type} (B : Bucket σ) (db : Nat → σ) (c : contractSnapshotImpl) :
    (∀ e, B.Get (db c.bk) c.codeHash = Except.error e →
      c.Resolve B db = { err := some e, self := c, requests := [] }) ∧
    (B.Get (db c.bk) c.codeHash = Except.ok none →
      c.Resolve B db =
        { err := none, self := c,
          requests := [{ id := BucketID.BytesByHash, key := c.codeHash, requester := c }] }) ∧
    (∀ bs, B.Get (db c.bk) c.codeHash = Except.ok (some bs) →
      c.Resolve B db =
        { err := none, self := { c with code := some bs }, requests := [] }) := by
  refine ⟨fun e he => ?_, fun hn => ?_, fun bs hb => ?_⟩
  · simp only [contractSnapshotImpl.Resolve, he]
  · simp only [contractSnapshotImpl.Resolve, hn]
  · simp only [contractSnapshotImpl.Resolve, hb]

/-- C14 at concrete inputs: over a bucket that holds `[1, 2, 3]` under the
snapshot's codeHash the code becomes resident; over an empty bucket one request
is registered. -/
theorem Resolve_spec_witness :
    unloadedSnapshot.Resolve mapBucket storedDB =
      { err := none, self := { unloadedSnapshot with code := some [1, 2, 3] },
        requests := [] } ∧
    unloadedSnapshot.Resolve mapBucket emptyDB =
      { err := none, self := unloadedSnapshot,
        requests := [{ id := BucketID.BytesByHash, key := unloadedSnapshot.codeHash,
                       requester := unloadedSnapshot }] } :=
  ⟨(Resolve_spec mapBucket storedDB unloadedSnapshot).2.2 [1, 2, 3] rfl,
   (Resolve_spec mapBucket emptyDB unloadedSnapshot).2.1 rfl⟩

/-- C15 as stated fails: a snapshot whose code `[9]` is resident accepts a
further delivery `[4]` and then holds `[4]`; and after a delivery of zero
bytes `Code()` goes to storage. -/
theorem OnData_writeOnce_counterexample :
    len sampleLoaded.code ≠ 0 ∧
    (sampleLoaded.OnData (some [4])).2 = none ∧
    (sampleLoaded.OnData (some [4])).1.code = some [4] ∧
    (sampleLoaded.OnData (some [4])).1.code ≠ sampleLoaded.code ∧
    ((unloadedSnapshot.OnData (some [])).1.Code mapBucket storedDB).reads =
      [(0, some (toySHA3 [1, 2, 3]))] := by
  refine ⟨by decide, by decide, by decide, by decide, by decide⟩

/-- C15, amended: after `OnData` delivers non-empty bytes `bs`, the resident code
is `bs` and `Code()` returns `bs` with no storage read; `OnData` has no
write-once guard: a further delivery makes the delivered bytes the code. -/
theorem OnData_populates {σ : Type} (B : Bucket σ) (db : Nat → σ) (c : contractSnapshotImpl)
    (bs : Bytes) (hbs : len bs ≠ 0) :
    (c.OnData bs).2 = none ∧
    (c.OnData bs).1.code = bs ∧
    (c.OnData bs).1.Code B db =
      { ret := bs, err := none, self := (c.OnData bs).1, reads := [] } ∧
    (∀ bs2, ((c.OnData bs).1.OnData bs2).1.code = bs2) := by
  refine ⟨rfl, rfl, ?_, fun _ => rfl⟩
  exact (Code_body B db (c.OnData bs).1).1 hbs

/-- C15, amended, at a concrete input: `[1, 2, 3]` delivered to
`unloadedSnapshot`; `Code()` over empty storage returns it. -/
theorem OnData_populates_witness :
    (unloadedSnapshot.OnData (some [1, 2, 3])).1.code = some [1, 2, 3] ∧
    (unloadedSnapshot.OnData (some [1, 2, 3])).1.Code mapBucket emptyDB =
      { ret := some [1, 2, 3], err := none,
        self := (unloadedSnapshot.OnData (some [1, 2, 3])).1, reads := [] } :=
  ⟨(OnData_populates mapBucket emptyDB unloadedSnapshot (some [1, 2, 3]) (by decide)).2.1,
   (OnData_populates mapBucket emptyDB unloadedSnapshot (some [1, 2, 3]) (by decide)).2.2.1⟩

/-- Removing a key from a map bucket state leaves no entry for it. -/
theorem lookup_filter_self (st : List (List Nat × List Nat)) (k : List Nat) :
    (st.filter (fun e => e.1 != k)).lookup k = none := by
  induction st with
  | nil => rfl
  | cons e rest ih =>
    obtain ⟨e1, e2⟩ := e
    by_cases he : e1 = k
    · simp only [List.filter_cons, he, bne_self_eq_false, Bool.false_eq_true, if_false]
      exact ih
    · have hb : (e1 != k) = true := by simp [he]
      have hk : (k == e1) = false := by
        simp only [beq_eq_false_iff_ne, ne_eq]
        exact fun h => he h.symm
      simp only [List.filter_cons, hb, if_true, List.lookup, hk]
      exact ih

/-- Removing a key from a map bucket state leaves the entries of other keys. -/
theorem lookup_filter_ne (st : List (List Nat × List Nat)) (k k2 : List Nat) (h : k2 ≠ k) :
    (st.filter (fun e => e.1 != k)).lookup k2 = st.lookup k2 := by
  induction st with
  | nil => rfl
  | cons e rest ih =>
    obtain ⟨e1, e2⟩ := e
    by_cases he : e1 = k
    · subst he
      have hk : (k2 == e1) = false := by
        simp only [beq_eq_false_iff_ne, ne_eq]
        exact h
      simp only [List.filter_cons, bne_self_eq_false, Bool.false_eq_true, if_false,
        List.lookup, hk]
      exact ih
    · have hb : (e1 != k) = true := by simp [he]
      by_cases hk : k2 = e1
      · have hk2 : (k2 == e1) = true := by simp [hk]
        simp only [List.filter_cons, hb, if_true, List.lookup, hk2]
      · have hk2 : (k2 == e1) = false := by simp [hk]
        simp only [List.filter_cons, hb, if_true, List.lookup, hk2]
        exact ih

/-- What a map bucket state holds for key `k2` after `Set(k, v)` with another
key `k`. -/
theorem lookup_set_ne (st : List (List Nat × List Nat)) (k v k2 : List Nat) (h : k2 ≠ k) :
    ((k, v) :: st.filter (fun e => e.1 != k)).lookup k2 = st.lookup k2 := by
  have hk : (k2 == k) = false := by simp [h]
  simp only [List.lookup, hk]
  exact lookup_filter_ne st k k2 h

/-- A key that no `Set` of a sequence names is as present afterwards as before. -/
theorem lookup_setAll (sets : List (Bytes × Bytes)) (k : List Nat) :
    ∀ st : List (List Nat × List Nat), (∀ p ∈ sets, content p.1 ≠ k) →
      (setAll st sets).lookup k = st.lookup k := by
  induction sets with
  | nil =>
    intro st _
    rfl
  | cons p rest ih =>
    intro st hp
    have h1 : k ≠ content p.1 := fun e => hp p (List.mem_cons_self _ _) e.symm
    have hrest : ∀ q ∈ rest, content q.1 ≠ k := fun q hq => hp q (List.mem_cons_of_mem _ hq)
    have hstep : setAll st (p :: rest) =
        setAll ((content p.1, content p.2) :: st.filter (fun e => e.1 != content p.1)) rest := rfl
    rw [hstep, ih _ hrest]
    exact lookup_set_ne st (content p.1) (content p.2) k h1

/-- C16: the storage contract on the map bucket.  A key that was never set is
absent (on the empty bucket and after any sets of other keys); after
`Set(k, v)`, `Get(k)` returns the bytes of `v` and `Has(k)` is true; after a
following `Delete(k)`, `Has(k)` is false and `Get(k)` returns nil without error;
after `Set(k, empty)`, `Has(k)` is true and `Get(k)` is zero-length; `Set(k, v)`
changes neither `Has` nor `Get` of any other key. -/
theorem bucket_contract (st : List (List Nat × List Nat)) (k v : Bytes) :
    (∀ sets : List (Bytes × Bytes), (∀ p ∈ sets, content p.1 ≠ content k) →
      mapBucket.Has (setAll [] sets) k = Except.ok false) ∧
    (∃ st1, mapBucket.Set st k v = Except.ok st1 ∧
      mapBucket.Get st1 k = Except.ok (some (content v)) ∧
      mapBucket.Has st1 k = Except.ok true ∧
      (∃ st2, mapBucket.Delete st1 k = Except.ok st2 ∧
        mapBucket.Has st2 k = Except.ok false ∧
        mapBucket.Get st2 k = Except.ok none) ∧
      (∀ k2 : Bytes, content k2 ≠ content k →
        mapBucket.Has st1 k2 = mapBucket.Has st k2 ∧
        mapBucket.Get st1 k2 = mapBucket.Get st k2)) ∧
    (∃ st3, mapBucket.Set st k (some []) = Except.ok st3 ∧
      mapBucket.Has st3 k = Except.ok true ∧
      mapBucket.Get st3 k = Except.ok (some [])) := by
  refine ⟨fun sets hsets => ?_, ⟨_, rfl, ?_, ?_, ⟨_, rfl, ?_, ?_⟩, fun k2 hk2 => ⟨?_, ?_⟩⟩,
    ⟨_, rfl, ?_, ?_⟩⟩
  · simp only [mapBucket, lookup_setAll sets (content k) [] hsets, List.lookup, Option.isSome]
  · simp only [mapBucket, List.lookup_cons_self]
  · simp only [mapBucket, List.lookup_cons_self, Option.isSome]
  · have h0 : (List.filter (fun e => e.1 != content k)
        ((content k, content v) :: List.filter (fun e => e.1 != content k) st)).lookup
          (content k) = none := lookup_filter_self _ _
    simp only [mapBucket, h0, Option.isSome]
  · have h0 : (List.filter (fun e => e.1 != content k)
        ((content k, content v) :: List.filter (fun e => e.1 != content k) st)).lookup
          (content k) = none := lookup_filter_self _ _
    simp only [mapBucket, h0]
  · simp only [mapBucket, lookup_set_ne st (content k) (content v) (content k2) hk2]
  · simp only [mapBucket, lookup_set_ne st (content k) (content v) (content k2) hk2]
  · simp only [mapBucket, content, List.lookup_cons_self, Option.isSome]
  · simp only [mapBucket, content, List.lookup_cons_self]

/-- C19: the code at a failing input.  From a view that is not newly written,
`SetCode([1])` followed by `SetCode(nil)` leaves isNew set while code and
codeHash are empty; the flush of that view's snapshot then writes the empty
value under the empty key. -/
theorem isNew_after_clear :
    sampleContract.isNew = false ∧
    ((sampleContract.SetCode toySHA3 (some [1])).self.SetCode toySHA3 none).self.isNew = true ∧
    len ((sampleContract.SetCode toySHA3 (some [1])).self.SetCode toySHA3 none).self.code = 0 ∧
    len ((sampleContract.SetCode toySHA3 (some [1])).self.SetCode toySHA3 none).self.codeHash
      = 0 ∧
    (((sampleContract.SetCode toySHA3 (some [1])).self.SetCode toySHA3
      none).self.tocontractSnapshotImpl.flush mapBucket emptyDB).err = none ∧
    (((sampleContract.SetCode toySHA3 (some [1])).self.SetCode toySHA3
      none).self.tocontractSnapshotImpl.flush mapBucket emptyDB).db 0 = [([], [])] := by
  refine ⟨by decide, by decide, by decide, by decide, by decide, by decide⟩

/-- `Encode` either reports no error with one of the two tags, or reports
UnknownType. -/
theorem Encode_cases (P : CodecParts) (o : Value) :
    ((typeCodec.Encode P o).err = none ∧
      ((typeCodec.Encode P o).tag = TypeAddress P ∨ (typeCodec.Encode P o).tag = TypeInt P)) ∨
    typeCodec.Encode P o = { tag := 0, data := none, err := some Error.UnknownType } := by
  cases o <;> simp [typeCodec.Encode]

/-- C18: `Decode` returns no error exactly for the tags TypeAddress and TypeInt
and an InvalidTypeTag error for every other tag; `Encode` gives the tag
TypeAddress for an address, the tag TypeInt for `*big.Int`, `*HexInt`, int,
int16, int32, int64, uint, uint16, uint32 and uint64, and an UnknownType error
for every other value; so every tag `Encode` emits is accepted by `Decode`,
and the two tags differ. -/
theorem typeCodec_closed (P : CodecParts) :
    (∀ (tag : Nat) (data : Bytes),
      ((typeCodec.Decode P tag data).2 = none ↔ tag = TypeAddress P ∨ tag = TypeInt P) ∧
      (tag ≠ TypeAddress P → tag ≠ TypeInt P →
        (typeCodec.Decode P tag data).2 = some (Error.InvalidTypeTag tag))) ∧
    (∀ a, (typeCodec.Encode P (Value.address a)).tag = TypeAddress P ∧
      (typeCodec.Encode P (Value.address a)).err = none) ∧
    (∀ (i : Int) (u : Nat) (o : Value),
      o = Value.bigInt i ∨ o = Value.hexInt i ∨ o = Value.int i ∨ o = Value.int16 i ∨
      o = Value.int32 i ∨ o = Value.int64 i ∨ o = Value.uint u ∨ o = Value.uint16 u ∨
      o = Value.uint32 u ∨ o = Value.uint64 u →
      (typeCodec.Encode P o).tag = TypeInt P ∧ (typeCodec.Encode P o).err = none) ∧
    (∀ (b : Bytes) (t : Bool) (s : String) (i : Int) (u : Nat) (l : ValueList) (m : ValueMap)
      (n : Nat) (o : Value),
      o = Value.nil ∨ o = Value.bytes b ∨ o = Value.hexBytes b ∨ o = Value.bool t ∨
      o = Value.string s ∨ o = Value.int8 i ∨ o = Value.uint8 u ∨ o = Value.list l ∨
      o = Value.map m ∨ o = Value.other n →
      (typeCodec.Encode P o).err = some Error.UnknownType) ∧
    (∀ (o : Value) (data : Bytes), (typeCodec.Encode P o).err = none →
      (typeCodec.Decode P (typeCodec.Encode P o).tag data).2 = none) ∧
    TypeAddress P ≠ TypeInt P := by
  have hne : TypeAddress P ≠ TypeInt P := by
    unfold TypeAddress TypeInt
    omega
  have hdec : ∀ (tag : Nat) (data : Bytes),
      ((typeCodec.Decode P tag data).2 = none ↔ tag = TypeAddress P ∨ tag = TypeInt P) := by
    intro tag data
    unfold typeCodec.Decode
    by_cases h1 : tag = TypeAddress P
    · simp [h1]
    · by_cases h2 : tag = TypeInt P
      · rw [if_neg h1, if_pos h2]
        exact ⟨fun _ => Or.inr h2, fun _ => rfl⟩
      · simp [h1, h2]
  refine ⟨fun tag data => ⟨hdec tag data, fun h1 h2 => ?_⟩, fun a => ⟨rfl, rfl⟩,
    fun i u o ho => ?_, fun b t s i u l m n o ho => ?_, fun o data he => ?_, hne⟩
  · simp only [typeCodec.Decode, if_neg h1, if_neg h2]
  · rcases ho with h | h | h | h | h | h | h | h | h | h <;> subst h <;> exact ⟨rfl, rfl⟩
  · rcases ho with h | h | h | h | h | h | h | h | h | h <;> subst h <;> rfl
  · rcases Encode_cases P o with ⟨_, ht⟩ | hu
    · exact (hdec _ data).2 ht
    · rw [hu] at he
      exact absurd he (by simp)

/-- C18 at a concrete codec (`TypeCustom` = 10): tag 10 and tag 11 decode, tag 12
does not; a `uint64` encodes under tag 11, a string does not encode. -/
theorem typeCodec_closed_witness :
    (typeCodec.Decode sampleParts 10 (some [1])).2 = none ∧
    (typeCodec.Decode sampleParts 11 (some [1])).2 = none ∧
    (typeCodec.Decode sampleParts 12 (some [1])).2 = some (Error.InvalidTypeTag 12) ∧
    (typeCodec.Encode sampleParts (Value.uint64 5)).tag = 11 ∧
    (typeCodec.Encode sampleParts (Value.string "x")).err = some Error.UnknownType :=
  ⟨(((typeCodec_closed sampleParts).1 10 (some [1])).1).2 (Or.inl rfl),
   (((typeCodec_closed sampleParts).1 11 (some [1])).1).2 (Or.inr rfl),
   ((typeCodec_closed sampleParts).1 12 (some [1])).2 (by decide) (by decide),
   ((typeCodec_closed sampleParts).2.2.1 0 5 (Value.uint64 5)
      (Or.inr (Or.inr (Or.inr (Or.inr (Or.inr (Or.inr (Or.inr (Or.inr (Or.inr rfl)))))))))).1,
   (typeCodec_closed sampleParts).2.2.2.1 none true "x" 0 0 ValueList.nil ValueMap.nil 0
      (Value.string "x") (Or.inr (Or.inr (Or.inr (Or.inr (Or.inl rfl)))))⟩

/-- One round of the list loop of `convertType` when nothing fails. -/
theorem convertList_cons (P : CodecParts) (v : Value) (rest : ValueList)
    (h1 : (convertType P v).2 = none) (h2 : (convertList P rest).2 = none) :
    convertList P (ValueList.cons v rest) =
      (ValueList.cons (convertType P v).1 (convertList P rest).1, none) := by
  rw [convertList]
  cases hv : convertType P v with
  | mk co e =>
    rw [hv] at h1
    cases hr : convertList P rest with
    | mk l e2 =>
      rw [hr] at h2
      simp only at h1 h2
      subst h1
      subst h2
      rfl

/-- One round of the map loop of `convertType` when nothing fails. -/
theorem convertMap_cons (P : CodecParts) (k : String) (v : Value) (rest : ValueMap)
    (h1 : (convertType P v).2 = none) (h2 : (convertMap P rest).2 = none) :
    convertMap P (ValueMap.cons k v rest) =
      (ValueMap.cons k (convertType P v).1 (convertMap P rest).1, none) := by
  rw [convertMap]
  cases hv : convertType P v with
  | mk co e =>
    rw [hv] at h1
    cases hr : convertMap P rest with
    | mk l e2 =>
      rw [hr] at h2
      simp only at h1 h2
      subst h1
      subst h2
      rfl

/-- `convertType` of a list whose loop does not fail. -/
theorem convertType_list (P : CodecParts) (l : ValueList) (h : (convertList P l).2 = none) :
    convertType P (Value.list l) = (Value.list (convertList P l).1, none) := by
  rw [convertType]
  cases hr : convertList P l with
  | mk l2 e =>
    rw [hr] at h
    simp only at h
    subst h
    rfl

/-- `convertType` of a map whose loop does not fail. -/
theorem convertType_map (P : CodecParts) (m : ValueMap) (h : (convertMap P m).2 = none) :
    convertType P (Value.map m) = (Value.map (convertMap P m).1, none) := by
  rw [convertType]
  cases hr : convertMap P m with
  | mk m2 e =>
    rw [hr] at h
    simp only at h
    subst h
    rfl

mutual
/-- `convertType` returns no error. -/
theorem convertType_ok (P : CodecParts) : ∀ v : Value, (convertType P v).2 = none
  | Value.list l => by rw [convertType_list P l (convertList_ok P l)]
  | Value.map m => by rw [convertType_map P m (convertMap_ok P m)]
  | Value.nil => rfl
  | Value.bytes _ => rfl
  | Value.hexBytes _ => rfl
  | Value.bool _ => rfl
  | Value.string _ => rfl
  | Value.address _ => rfl
  | Value.bigInt _ => rfl
  | Value.hexInt _ => rfl
  | Value.int _ => rfl
  | Value.int8 _ => rfl
  | Value.int16 _ => rfl
  | Value.int32 _ => rfl
  | Value.int64 _ => rfl
  | Value.uint _ => rfl
  | Value.uint8 _ => rfl
  | Value.uint16 _ => rfl
  | Value.uint32 _ => rfl
  | Value.uint64 _ => rfl
  | Value.other _ => rfl
/-- The list loop of `convertType` returns no error. -/
theorem convertList_ok (P : CodecParts) : ∀ l : ValueList, (convertList P l).2 = none
  | ValueList.nil => rfl
  | ValueList.cons v rest => by
    rw [convertList_cons P v rest (convertType_ok P v) (convertList_ok P rest)]
/-- The map loop of `convertType` returns no error. -/
theorem convertMap_ok (P : CodecParts) : ∀ m : ValueMap, (convertMap P m).2 = none
  | ValueMap.nil => rfl
  | ValueMap.cons k v rest => by
    rw [convertMap_cons P k v rest (convertType_ok P v) (convertMap_ok P rest)]
end

/-- The list loop converts element by element, in order. -/
theorem convertList_toList (P : CodecParts) : ∀ l : ValueList,
    (convertList P l).1.toList = l.toList.map (fun v => (convertType P v).1)
  | ValueList.nil => rfl
  | ValueList.cons v rest => by
    rw [convertList_cons P v rest (convertType_ok P v) (convertList_ok P rest)]
    simp only [ValueList.toList, List.map_cons, convertList_toList P rest]

/-- The map loop converts entry by entry and keeps the keys. -/
theorem convertMap_toList (P : CodecParts) : ∀ m : ValueMap,
    (convertMap P m).1.toList = m.toList.map (fun kv => (kv.1, (convertType P kv.2).1))
  | ValueMap.nil => rfl
  | ValueMap.cons k v rest => by
    rw [convertMap_cons P k v rest (convertType_ok P v) (convertMap_ok P rest)]
    simp only [ValueMap.toList, List.map_cons, convertMap_toList P rest]

mutual
/-- Converting a converted value changes nothing. -/
theorem convertType_idem (P : CodecParts) : ∀ v : Value,
    convertType P (convertType P v).1 = convertType P v
  | Value.list l => by
    rw [convertType_list P l (convertList_ok P l)]
    simp only
    rw [convertType_list P _ (convertList_ok P _), convertList_idem P l]
  | Value.map m => by
    rw [convertType_map P m (convertMap_ok P m)]
    simp only
    rw [convertType_map P _ (convertMap_ok P _), convertMap_idem P m]
  | Value.nil => rfl
  | Value.bytes _ => rfl
  | Value.hexBytes _ => rfl
  | Value.bool _ => rfl
  | Value.string _ => rfl
  | Value.address _ => rfl
  | Value.bigInt _ => rfl
  | Value.hexInt _ => rfl
  | Value.int _ => rfl
  | Value.int8 _ => rfl
  | Value.int16 _ => rfl
  | Value.int32 _ => rfl
  | Value.int64 _ => rfl
  | Value.uint _ => rfl
  | Value.uint8 _ => rfl
  | Value.uint16 _ => rfl
  | Value.uint32 _ => rfl
  | Value.uint64 _ => rfl
  | Value.other _ => rfl
/-- Converting the elements of a converted list changes nothing. -/
theorem convertList_idem (P : CodecParts) : ∀ l : ValueList,
    convertList P (convertList P l).1 = convertList P l
  | ValueList.nil => rfl
  | ValueList.cons v rest => by
    rw [convertList_cons P v rest (convertType_ok P v) (convertList_ok P rest)]
    simp only
    rw [convertList_cons P _ _ (convertType_ok P _) (convertList_ok P _),
      convertType_idem P v, convertList_idem P rest]
/-- Converting the entries of a converted map changes nothing. -/
theorem convertMap_idem (P : CodecParts) : ∀ m : ValueMap,
    convertMap P (convertMap P m).1 = convertMap P m
  | ValueMap.nil => rfl
  | ValueMap.cons k v rest => by
    rw [convertMap_cons P k v rest (convertType_ok P v) (convertMap_ok P rest)]
    simp only
    rw [convertMap_cons P _ _ _ (convertType_ok P _) (convertMap_ok P _),
      convertType_idem P v, convertMap_idem P rest]
end

/-- C20: `convertType` never returns an error; it turns a byte string into the
same bytes as HexBytes, true into the HexInt 1 and false into the HexInt 0
(given that `SetBytes` reads `codec.TrueBytes` as 1 and `codec.FalseBytes` as
0), a list into the list of its converted elements in order, a map into the
map of its converted values under the same keys, and leaves every other value
as it is; converting a converted value changes nothing; and
`DecodeAnyForResponse` fails exactly when `DecodeAny` fails. -/
theorem convertType_spec {τ : Type} (P : CodecParts) (codecDecodeAny : τ → Value × Option Error)
    (hT : P.HexIntSetBytes P.TrueBytes = 1) (hF : P.HexIntSetBytes P.FalseBytes = 0) :
    (∀ v, (convertType P v).2 = none) ∧
    (∀ b, convertType P (Value.bytes b) = (Value.hexBytes b, none)) ∧
    convertType P (Value.bool true) = (Value.hexInt 1, none) ∧
    convertType P (Value.bool false) = (Value.hexInt 0, none) ∧
    (∀ l, ∃ l2, convertType P (Value.list l) = (Value.list l2, none) ∧
      l2.toList.length = l.toList.length ∧
      l2.toList = l.toList.map (fun v => (convertType P v).1)) ∧
    (∀ m, ∃ m2, convertType P (Value.map m) = (Value.map m2, none) ∧
      m2.toList.map Prod.fst = m.toList.map Prod.fst ∧
      m2.toList = m.toList.map (fun kv => (kv.1, (convertType P kv.2).1))) ∧
    (∀ v, (∀ b, v ≠ Value.bytes b) → (∀ b, v ≠ Value.bool b) → (∀ l, v ≠ Value.list l) →
      (∀ m, v ≠ Value.map m) → convertType P v = (v, none)) ∧
    (∀ v, (convertType P (convertType P v).1).1 = (convertType P v).1) ∧
    (∀ o, (DecodeAnyForResponse P codecDecodeAny o).2 = none ↔
      (DecodeAny codecDecodeAny o).2 = none) := by
  refine ⟨convertType_ok P, fun _ => rfl, ?_, ?_, fun l => ?_, fun m => ?_, fun v h1 h2 h3 h4 => ?_,
    fun v => ?_, fun o => ?_⟩
  · simp only [convertType, hT, if_true]
  · simp only [convertType, hF, Bool.false_eq_true, if_false]
  · refine ⟨(convertList P l).1, convertType_list P l (convertList_ok P l), ?_,
      convertList_toList P l⟩
    rw [convertList_toList P l, List.length_map]
  · refine ⟨(convertMap P m).1, convertType_map P m (convertMap_ok P m), ?_,
      convertMap_toList P m⟩
    rw [convertMap_toList P m, List.map_map]
    rfl
  · cases v with
    | bytes b => exact absurd rfl (h1 b)
    | bool b => exact absurd rfl (h2 b)
    | list l => exact absurd rfl (h3 l)
    | map m => exact absurd rfl (h4 m)
    | _ => rfl
  · rw [convertType_idem P v]
  · unfold DecodeAnyForResponse DecodeAny
    cases hd : codecDecodeAny o with
    | mk value e =>
      cases e with
      | none =>
        simp only [convertType_ok P value]
      | some err =>
        simp only

/-- C20 at a concrete codec and decoder: a decoded list `[bytes [3], true]`
becomes `[HexBytes [3], HexInt 1]`, and the typed object 0, which does not
decode, fails in `DecodeAnyForResponse` too. -/
theorem convertType_spec_witness :
    DecodeAnyForResponse sampleParts sampleDecodeAny 3 =
      (Value.list (ValueList.cons (Value.hexBytes (some [3]))
        (ValueList.cons (Value.hexInt 1) ValueList.nil)), none) ∧
    ((DecodeAnyForResponse sampleParts sampleDecodeAny 0).2 = none ↔
      (DecodeAny sampleDecodeAny 0).2 = none) ∧
    convertType sampleParts (Value.bool false) = (Value.hexInt 0, none) :=
  ⟨rfl, (convertType_spec sampleParts sampleDecodeAny rfl rfl).2.2.2.2.2.2.2.2 0,
   (convertType_spec sampleParts sampleDecodeAny rfl rfl).2.2.2.1⟩

end Goloop
